import Mathlib

/-!
# group-bot: the notification policy of RunBot (src/bot.go)

A shallow embedding of the event loop of the Mastodon group bot.

* Go strings are Lean strings; the regular expression and the split of the
  admin command work on the list of characters of the content.
* The process-wide variable boostsenabled and the database behind the
  repository helpers form the explicit state `Bot`.
* Everything the loop asks of the outside (relationship query, HTTP fetch of
  the ActivityPub object, the result of posting, the SHA-512 digest) is read
  from a `World` value, one per event.
* Every call the loop makes to the Mastodon client, to the HTTP client and to
  a writing repository helper is appended to a trace, in program order.
  Logger calls are not modelled.
* A run-time panic (index out of range, nil dereference) ends the processing:
  the step is flagged `panicked`.
-/

namespace GroupBot

/-! ## Configuration and event data -/

/-- The fields of the global `Conf` that RunBot reads (the declaration of `Conf`
is not part of src/bot.go, so the configuration is a parameter). -/
structure Config where
  WelcomeMessage : String
  NotFollowedMessage : String
  Order_limit : Int
  Admins : List String

/-- The fields of `mastodon.Account` that RunBot reads. -/
structure Account where
  ID : String
  Acct : String
deriving DecidableEq, Repr

/-- The fields of `mastodon.Status` that RunBot reads. `InReplyToID` is an
`interface{}` compared with nil: `none` is nil. -/
structure Status where
  ID : String
  Account : Account
  Content : String
  URL : String
  Visibility : String
  InReplyToID : Option String
deriving DecidableEq, Repr

/-- The fields of `mastodon.Notification` that RunBot reads. `Status` is a
pointer in Go: `none` is the nil pointer. -/
structure Notification where
  Type_ : String
  Account : Account
  Status : Option Status
deriving DecidableEq, Repr

/-- What the stream delivers: a `*mastodon.NotificationEvent`, or anything else
(the type assertion at line 88 fails). -/
inductive Event where
  | notification (n : Notification)
  | other
deriving DecidableEq, Repr

/-! ## The outside world -/

/-- One entry of the slice returned by `GetAccountRelationships`. -/
structure Relationship where
  FollowedBy : Bool
deriving DecidableEq, Repr

/-- Result of `json.NewDecoder(reader).Decode(&apobj)`: an error, or an
`APobject` whose `InReplyTo` pointer is nil (`none`) or set. -/
inductive Decoded where
  | failure
  | object (InReplyTo : Option String)
deriving DecidableEq, Repr

/-- An HTTP response as far as CheckAPReply looks at it. `plain` is the result
of decoding the raw body as JSON; `gunzip` is `none` when `gzip.NewReader`
returns an error (and a nil reader), and otherwise the result of decoding the
decompressed body as JSON. -/
structure Response where
  StatusCode : Nat
  ContentEncoding : String
  plain : Decoded
  gunzip : Option Decoded
deriving DecidableEq, Repr

/-- Outcome of building and sending the GET request of CheckAPReply. -/
inductive HttpResult where
  | requestError
  | transportError
  | response (resp : Response)
deriving DecidableEq, Repr

/-- The answers of the outside world while one event is processed.
`GetAccountRelationships` returns the slice and whether `err != nil`;
`postToot` returns whether `err != nil`; `sha512hex` is
`fmt.Sprintf("%x", sha512(content))`. -/
structure World where
  GetAccountRelationships : List String → List Relationship × Bool
  httpGet : String → HttpResult
  postToot : String → String → Bool
  sha512hex : String → String

/-- The calls recorded in the trace of a step. `postToot` carries the result
of the call (`failed` is `err != nil`). -/
inductive Call where
  | GetAccountRelationships (ids : List String)
  | httpGet (url : String)
  | Reblog (id : String)
  | Unreblog (id : String)
  | DeleteStatus (id : String)
  | postToot (message visibility : String) (failed : Bool)
  | add_to_db (acct : String)
  | save_msg_hash (hash : String)
  | take_ticket (acct : String)
  | count_order (acct : String)
  | mark_notice (acct : String)
deriving DecidableEq, Repr

/-- Outbound actions against the remote service: reblog, unreblog, delete, post. -/
def Call.isAction : Call → Bool
  | .Reblog _ => true
  | .Unreblog _ => true
  | .DeleteStatus _ => true
  | .postToot _ _ _ => true
  | _ => false

/-- Calls of the writing repository helpers. -/
def Call.isWrite : Call → Bool
  | .add_to_db _ => true
  | .save_msg_hash _ => true
  | .take_ticket _ => true
  | .count_order _ => true
  | .mark_notice _ => true
  | _ => false

/-- The outbound actions of a trace, in order. -/
def actions (t : List Call) : List Call := t.filter Call.isAction

/-- The repository writes of a trace, in order. -/
def writes (t : List Call) : List Call := t.filter Call.isWrite

/-- The status IDs reblogged by a trace, in order. -/
def reblogs : List Call → List String
  | [] => []
  | .Reblog id :: t => id :: reblogs t
  | _ :: t => reblogs t

/-- The posts of a trace, in order: message, visibility, and whether it failed. -/
def posts : List Call → List (String × String × Bool)
  | [] => []
  | .postToot m v f :: t => (m, v, f) :: posts t
  | _ :: t => posts t

/-! ## Repository -/

/-- Modelled from the spec: the store behind the repository helpers, which are
not part of src/bot.go. Section 3 of the specification: an AccountRecord is an
existence flag per handle, a ContentFingerprint is a member of a set of
digests, the QuotaState is an integer `orderCount` and an integer
`ticketBalance` per handle, the NoticeFlag is a boolean per handle. -/
structure Repository where
  users : String → Bool
  hashes : String → Bool
  order : String → Int
  ticket : String → Int
  notice : String → Bool

/-- Modelled from the spec: `exists(acct) bool` of the repository contract;
the helper itself is missing from src/. -/
def exist_in_database (r : Repository) (acct : String) : Bool := r.users acct

/-- Modelled from the spec: `create(acct)` of the repository contract (the
helper is missing from src/): the record of `acct` exists afterwards, no other
key and no other table is touched. -/
def add_to_db (r : Repository) (acct : String) : Repository :=
  { r with users := fun a => if a = acct then true else r.users a }

/-- Modelled from the spec: `seenFingerprint(digest) bool` (helper missing
from src/). -/
def check_msg_hash (r : Repository) (hash : String) : Bool := r.hashes hash

/-- Modelled from the spec: `recordFingerprint(digest)` (helper missing from
src/): the digest is a member of the set afterwards. -/
def save_msg_hash (r : Repository) (hash : String) : Repository :=
  { r with hashes := fun h => if h = hash then true else r.hashes h }

/-- Modelled from the spec: `orderCount(acct) int` (helper missing from src/). -/
def check_order (r : Repository) (acct : String) : Int := r.order acct

/-- Modelled from the spec: `incrementOrder(acct)` (helper missing from src/):
`orderCount += 1` for this handle only. -/
def count_order (r : Repository) (acct : String) : Repository :=
  { r with order := fun a => if a = acct then r.order a + 1 else r.order a }

/-- Modelled from the spec: `ticketBalance(acct) int` (helper missing from
src/). -/
def check_ticket (r : Repository) (acct : String) : Int := r.ticket acct

/-- Modelled from the spec: `spendTicket(acct)` (helper missing from src/):
`ticketBalance -= 1` for this handle only, not re-validated. -/
def take_ticket (r : Repository) (acct : String) : Repository :=
  { r with ticket := fun a => if a = acct then r.ticket a - 1 else r.ticket a }

/-- Modelled from the spec: `noticeSent(acct) bool` (helper missing from
src/). RunBot compares the result with the integer 0, so the flag is returned
as 1 when set and 0 when unset. -/
def got_notice (r : Repository) (acct : String) : Nat :=
  if r.notice acct then 1 else 0

/-- Modelled from the spec: `markNoticeSent(acct)` (helper missing from src/):
the flag of this handle is set. -/
def mark_notice (r : Repository) (acct : String) : Repository :=
  { r with notice := fun a => if a = acct then true else r.notice a }

/-! ## State and steps -/

/-- The mutable state of the process: the repository and the global
`boostsenabled` (line 28, initially true). -/
structure Bot where
  repo : Repository
  boostsenabled : Bool

/-- The state the process starts in, over a given repository. -/
def Bot.start (r : Repository) : Bot := ⟨r, true⟩

/-- Result of processing: the state reached, the calls made, and whether the
processing ended in a run-time panic. -/
structure Step where
  bot : Bot
  trace : List Call
  panicked : Bool

/-- Normal completion. -/
def Step.done (b : Bot) (t : List Call) : Step := ⟨b, t, false⟩

/-- Run-time panic after the calls `t`. -/
def Step.panic (b : Bot) (t : List Call) : Step := ⟨b, t, true⟩

/-! ## CheckAPReply (lines 35-78) -/

/-- CheckAPReply, lines 38-78. `none` is a run-time panic: when the response
declares `Content-Encoding: gzip` and `gzip.NewReader` fails, `reader` holds a
nil `*gzip.Reader`, and `Decode` reads from it. -/
def CheckAPReply (w : World) (tooturl : String) : Option Bool :=
  match w.httpGet tooturl with
  | .requestError => some false
  | .transportError => some false
  | .response resp =>
    if resp.StatusCode ≠ 200 then some false
    else
      let reader : Option Decoded :=
        if resp.ContentEncoding = "gzip" then resp.gunzip else some resp.plain
      match reader with
      | none => none
      | some .failure => some false
      | some (.object InReplyTo) =>
        if InReplyTo ≠ none then some true else some false

/-! ## The admin command text (lines 182-184) -/

/-- Length of the match of the pattern `<[^>]+>` after its first two
characters: scans to the first `>`. Argument: the text after `<` and one
character that is not `>`; result: number of characters up to and including
the closing `>`, if there is one. -/
def closeLen : List Char → Option Nat
  | [] => none
  | c :: rest => if c = '>' then some 1 else (closeLen rest).map (· + 1)

/-- Length of the match of `<[^>]+>` that starts at the head of the text, if
there is one: `<`, then at least one character other than `>`, then the
first `>`. -/
def matchLen : List Char → Option Nat
  | '<' :: c :: rest => if c = '>' then none else (closeLen rest).map (· + 2)
  | _ => none

/-- The scan of `ReplaceAllString(content, "")`: `skip` characters of a match
in progress are still to be dropped; otherwise a match is tried at the
current position, and when there is none the character is kept. -/
def stripFrom : Nat → List Char → List Char
  | _, [] => []
  | k + 1, _ :: rest => stripFrom k rest
  | 0, c :: rest =>
    match matchLen (c :: rest) with
    | some len => stripFrom (len - 1) rest
    | none => c :: stripFrom 0 rest

/-- Line 182-183: `regexp.MustCompile("<[^>]+>").ReplaceAllString(content, "")`,
every leftmost non-overlapping match removed. -/
def stripTags (content : List Char) : List Char := stripFrom 0 content

/-- Line 184 on characters: `strings.Split(command, " ")`. -/
def splitSpace : List Char → List (List Char)
  | [] => [[]]
  | c :: rest =>
    if c = ' ' then [] :: splitSpace rest
    else
      match splitSpace rest with
      | [] => [[c]]
      | t :: ts => (c :: t) :: ts

/-- Lines 182-184: the tokens `args` of the admin command. -/
def commandArgs (content : String) : List String :=
  (splitSpace (stripTags content.data)).map String.mk

/-! ## RunBot (lines 80-254) -/

/-- Lines 96-112, the body of the branch for a new follower. -/
def onFollow (conf : Config) (w : World) (b : Bot) (n : Notification) : Step :=
  let acct := n.Account.Acct
  if !exist_in_database b.repo acct then
    let r1 := add_to_db b.repo acct
    let message := conf.WelcomeMessage ++ " @" ++ acct
    let failed := w.postToot message "public"
    Step.done { b with repo := r1 } [.add_to_db acct, .postToot message "public" failed]
  else
    Step.done b []

/-- Lines 142-151, duplicate protection: the digest of the content is saved
when it is not in the database yet. The repository reached and the calls made. -/
def duplicateProtection (w : World) (r : Repository) (content : String) :
    Repository × List Call :=
  let hash := w.sha512hex content
  if !check_msg_hash r hash then (save_msg_hash r hash, [.save_msg_hash hash])
  else (r, [])

/-- Lines 154-157 (and again lines 229-232): the account is added to the
database when it is not there yet. The repository reached and the calls made. -/
def addIfNeeded (r : Repository) (acct : String) : Repository × List Call :=
  if !exist_in_database r acct then (add_to_db r acct, [.add_to_db acct])
  else (r, [])

/-- Lines 130-178, the branch for a public mention of a follower. -/
def boostPath (conf : Config) (w : World) (b : Bot) (st : Status) : Step :=
  let acct := st.Account.Acct
  let content := st.Content
  let tooturl := st.URL
  if b.boostsenabled = false then
    Step.done b []
  else
    -- lines 133-139: APreply, with the fetch only when the native pointer is nil
    let fetch : Option Bool × List Call :=
      if st.InReplyToID = none then (CheckAPReply w tooturl, [.httpGet tooturl])
      else (some false, [])
    match fetch.1 with
    | none => Step.panic b fetch.2
    | some APreply =>
      if st.InReplyToID = none ∧ APreply = false then
        let p1 := duplicateProtection w b.repo content
        let p2 := addIfNeeded p1.1 acct
        -- lines 160-175: message order and ticket
        if check_order p2.1 acct < conf.Order_limit then
          if check_ticket p2.1 acct > 0 then
            let r3 := take_ticket p2.1 acct
            let r4 := count_order r3 acct
            Step.done { b with repo := r4 }
              (fetch.2 ++ p1.2 ++ p2.2 ++ [.take_ticket acct, .count_order acct, .Reblog st.ID])
          else
            Step.done { b with repo := p2.1 } (fetch.2 ++ p1.2 ++ p2.2)
        else
          Step.done { b with repo := p2.1 } (fetch.2 ++ p1.2 ++ p2.2)
      else
        Step.done b fetch.2

/-- Lines 182-221, one evaluation of the admin command: the state reached and
the calls made. -/
def adminCommand (content : String) (b : Bot) : Bot × List Call :=
  let args := commandArgs content
  match args with
  | [_, verb, mID] =>
    if verb = "boost" then (b, [.Reblog mID])
    else if verb = "unboost" then (b, [.Unreblog mID])
    else if verb = "delete" then (b, [.DeleteStatus mID])
    else if verb = "disable" then ({ b with boostsenabled := false }, [])
    else if verb = "enable" then ({ b with boostsenabled := true }, [])
    else (b, [])
  | [_, verb] =>
    if verb = "disable" then ({ b with boostsenabled := false }, [])
    else if verb = "enable" then ({ b with boostsenabled := true }, [])
    else (b, [])
  | _ => (b, [])

/-- Lines 180-223: the loop over `Conf.Admins`; the command is evaluated once
for every entry equal to `acct`. -/
def adminLoop (acct content : String) : List String → Bot → Bot × List Call
  | [], b => (b, [])
  | a :: rest, b =>
    if acct = a then
      let r1 := adminCommand content b
      let r2 := adminLoop acct content rest r1.1
      (r2.1, r1.2 ++ r2.2)
    else
      adminLoop acct content rest b

/-- Lines 179-223, the branch for a direct mention of a follower. -/
def adminPath (conf : Config) (b : Bot) (st : Status) : Step :=
  let r := adminLoop st.Account.Acct st.Content conf.Admins b
  Step.done r.1 r.2

/-- Lines 228-250, the branch for a mention of an account that does not
follow the bot. -/
def noticePath (conf : Config) (w : World) (b : Bot) (st : Status) : Step :=
  let acct := st.Account.Acct
  if got_notice b.repo acct = 0 then
    let p1 := addIfNeeded b.repo acct
    if st.InReplyToID = none then
      let message := "@" ++ acct ++ " " ++ conf.NotFollowedMessage
      let failed := w.postToot message "direct"
      let r2 := mark_notice p1.1 acct
      if got_notice r2 acct = 0 then
        let r3 := mark_notice r2 acct
        Step.done { b with repo := r3 }
          (p1.2 ++ [.postToot message "direct" failed, .mark_notice acct, .mark_notice acct])
      else
        Step.done { b with repo := r2 }
          (p1.2 ++ [.postToot message "direct" failed, .mark_notice acct])
    else
      Step.done { b with repo := p1.1 } p1.2
  else
    Step.done b []

/-- Lines 122-128: `relationship[0].FollowedBy` on the slice returned for the
account of the status; `none` when the slice is empty, where the index
expression panics (the error of the query is only logged). -/
def followedBy (w : World) (st : Status) : Option Bool :=
  match (w.GetAccountRelationships [st.Account.ID]).1 with
  | [] => none
  | rel :: _ => some rel.FollowedBy

/-- Lines 116-251, the body of the branch for a mention. Reading
`notif.Status` through a nil pointer panics, and so does `relationship[0]` on
an empty slice. -/
def onMention (conf : Config) (w : World) (b : Bot) (n : Notification) : Step :=
  match n.Status with
  | none => Step.panic b []
  | some st =>
    let account_id := [st.Account.ID]
    match followedBy w st with
    | none => Step.panic b [.GetAccountRelationships account_id]
    | some follows =>
      let s :=
        if follows then
          if st.Visibility = "public" then boostPath conf w b st
          else if st.Visibility = "direct" then adminPath conf b st
          else Step.done b []
        else noticePath conf w b st
      { s with trace := .GetAccountRelationships account_id :: s.trace }

/-- Lines 93-252: one notification. The two tests of `notif.Type` run one
after the other. -/
def onNotification (conf : Config) (w : World) (b : Bot) (n : Notification) : Step :=
  let s1 := if n.Type_ = "follow" then onFollow conf w b n else Step.done b []
  if s1.panicked then s1
  else if n.Type_ = "mention" then
    let s2 := onMention conf w s1.bot n
    { s2 with trace := s1.trace ++ s2.trace }
  else s1

/-- Lines 88-252: one iteration of the loop, on the event received. -/
def processEvent (conf : Config) (w : World) (b : Bot) : Event → Step
  | .other => Step.done b []
  | .notification n => onNotification conf w b n

/-- The loop of RunBot over the events received, each with the answers of the
outside world at that time. A panic ends the process: the remaining events
are not processed. -/
def RunBot (conf : Config) : Bot → List (World × Event) → Step
  | b, [] => Step.done b []
  | b, (w, ev) :: rest =>
    let s1 := processEvent conf w b ev
    if s1.panicked then s1
    else
      let s2 := RunBot conf s1.bot rest
      { s2 with trace := s1.trace ++ s2.trace }

/-- Lines 142-157 together: the repository reached and the calls made by the
duplicate protection followed by the conditional `add_to_db`. -/
def prepared (w : World) (r : Repository) (st : Status) : Repository × List Call :=
  ((addIfNeeded (duplicateProtection w r st.Content).1 st.Account.Acct).1,
    (duplicateProtection w r st.Content).2 ++
      (addIfNeeded (duplicateProtection w r st.Content).1 st.Account.Acct).2)

/-- The conditions under which lines 130-168 reach the reblog, read in the
state before the event. -/
def gateOpen (conf : Config) (w : World) (b : Bot) (st : Status) : Prop :=
  b.boostsenabled = true ∧ st.InReplyToID = none ∧ CheckAPReply w st.URL = some false ∧
    check_order b.repo st.Account.Acct < conf.Order_limit ∧
    check_ticket b.repo st.Account.Acct > 0

/-- Lines 228-250 once more, with the writing helper of line 240 and line 243
as the parameter `mark`: with `mark_notice` it is `noticePath`, and with a
writer that does not set the flag it reaches the branch of lines 241-244. -/
def noticePathWith (mark : Repository → String → Repository) (conf : Config) (w : World)
    (b : Bot) (st : Status) : Step :=
  let acct := st.Account.Acct
  if got_notice b.repo acct = 0 then
    let p1 := addIfNeeded b.repo acct
    if st.InReplyToID = none then
      let message := "@" ++ acct ++ " " ++ conf.NotFollowedMessage
      let failed := w.postToot message "direct"
      let r2 := mark p1.1 acct
      if got_notice r2 acct = 0 then
        let r3 := mark r2 acct
        Step.done { b with repo := r3 }
          (p1.2 ++ [.postToot message "direct" failed, .mark_notice acct, .mark_notice acct])
      else
        Step.done { b with repo := r2 }
          (p1.2 ++ [.postToot message "direct" failed, .mark_notice acct])
    else
      Step.done { b with repo := p1.1 } p1.2
  else
    Step.done b []

/-- The account an event acts for: `notif.Account.Acct` for a follow (line 97),
`notif.Status.Account.Acct` for a mention (line 117); no account for anything
else and for a mention without status. -/
def Event.actor : Event → Option String
  | .other => none
  | .notification n =>
    if n.Type_ = "follow" then some n.Account.Acct
    else if n.Type_ = "mention" then n.Status.map (fun st => st.Account.Acct)
    else none

/-- The shape that the pattern of line 182 matches, in the words of the
specification: `<`, then one or more characters other than `>`, then `>`. -/
def isMarkupSpan (t : List Char) : Prop :=
  ∃ body : List Char, body ≠ [] ∧ '>' ∉ body ∧ t = '<' :: (body ++ ['>'])

/-- No position of the text is the start of a match of the pattern of line 182. -/
def tagFree : List Char → Prop
  | [] => True
  | c :: rest => matchLen (c :: rest) = none ∧ tagFree rest

/-- The quota bounds of the specification for one repository: no negative
ticket balance, no order count above the order limit. -/
def quotaOk (conf : Config) (r : Repository) : Prop :=
  ∀ a : String, 0 ≤ check_ticket r a ∧ check_order r a ≤ conf.Order_limit

/-- A mention received from the account `acct` that has no native reply
pointer, at a time when the account does not follow the bot. -/
def plainStrangerMention (acct : String) (p : World × Event) : Prop :=
  ∃ n st, p.2 = .notification n ∧ n.Type_ = "mention" ∧ n.Status = some st ∧
    st.Account.Acct = acct ∧ st.InReplyToID = none ∧ followedBy p.1 st = some false

/-! ## Concrete scenarios (section 8 of the specification) -/

/-- A configuration with order limit 5 and the single administrator alice. -/
def scenarioConf : Config :=
  { WelcomeMessage := "Welcome", NotFollowedMessage := "please follow first",
    Order_limit := 5, Admins := ["alice"] }

/-- A world in which the queried account follows the bot iff `follows`, the
ActivityPub object has no `inReplyTo`, and posting succeeds. -/
def scenarioWorld (follows : Bool) : World :=
  { GetAccountRelationships := fun _ => ([⟨follows⟩], false),
    httpGet := fun _ => .response ⟨200, "", .object none, none⟩,
    postToot := fun _ _ => false,
    sha512hex := fun content => "sha512:" ++ content }

/-- An empty repository in which every account holds `tickets` tickets. -/
def scenarioRepo (tickets : Int) : Repository :=
  { users := fun _ => false, hashes := fun _ => false, order := fun _ => 0,
    ticket := fun _ => tickets, notice := fun _ => false }

/-- A mention by `acct` with the given status ID, content, visibility and
native reply pointer. -/
def scenarioStatus (acct id content visibility : String) (parent : Option String) : Status :=
  ⟨id, ⟨"7", acct⟩, content, "https://example.org/" ++ id, visibility, parent⟩

/-- The mention notification that carries `scenarioStatus`. -/
def scenarioMention (acct id content visibility : String) (parent : Option String) :
    Notification :=
  { Type_ := "mention", Account := ⟨"7", acct⟩,
    Status := some (scenarioStatus acct id content visibility parent) }

/-- A follow by `acct`. -/
def scenarioFollow (acct : String) : Notification :=
  { Type_ := "follow", Account := ⟨"7", acct⟩, Status := none }

/-! ## Lemmas on traces and on the repository helpers -/

theorem reblogs_append (t u : List Call) : reblogs (t ++ u) = reblogs t ++ reblogs u := by
  induction t with
  | nil => rfl
  | cons c t ih => cases c <;> simp [reblogs, ih]

theorem posts_append (t u : List Call) : posts (t ++ u) = posts t ++ posts u := by
  induction t with
  | nil => rfl
  | cons c t ih => cases c <;> simp [posts, ih]

theorem actions_query (ids : List String) (t : List Call) :
    actions (.GetAccountRelationships ids :: t) = actions t := rfl

theorem actions_append (t u : List Call) : actions (t ++ u) = actions t ++ actions u := by
  simp [actions]

theorem writes_append (t u : List Call) : writes (t ++ u) = writes t ++ writes u := by
  simp [writes]

theorem duplicateProtection_fields (w : World) (r : Repository) (c : String) :
    (duplicateProtection w r c).1.order = r.order ∧
    (duplicateProtection w r c).1.ticket = r.ticket ∧
    (duplicateProtection w r c).1.notice = r.notice ∧
    (duplicateProtection w r c).1.users = r.users := by
  simp only [duplicateProtection]
  split_ifs <;> simp [save_msg_hash]

theorem addIfNeeded_fields (r : Repository) (a : String) :
    (addIfNeeded r a).1.order = r.order ∧
    (addIfNeeded r a).1.ticket = r.ticket ∧
    (addIfNeeded r a).1.notice = r.notice ∧
    (addIfNeeded r a).1.hashes = r.hashes := by
  unfold addIfNeeded
  split_ifs <;> simp [add_to_db]

theorem duplicateProtection_actions (w : World) (r : Repository) (c : String) :
    actions (duplicateProtection w r c).2 = [] ∧ reblogs (duplicateProtection w r c).2 = [] ∧
    posts (duplicateProtection w r c).2 = [] := by
  simp only [duplicateProtection]
  split_ifs <;> simp [actions, reblogs, posts, Call.isAction]

theorem addIfNeeded_actions (r : Repository) (a : String) :
    actions (addIfNeeded r a).2 = [] ∧ reblogs (addIfNeeded r a).2 = [] ∧
    posts (addIfNeeded r a).2 = [] := by
  unfold addIfNeeded
  split_ifs <;> simp [actions, reblogs, posts, Call.isAction]

theorem prepared_fields (w : World) (r : Repository) (st : Status) :
    (prepared w r st).1.order = r.order ∧ (prepared w r st).1.ticket = r.ticket ∧
    (prepared w r st).1.notice = r.notice := by
  have h1 := duplicateProtection_fields w r st.Content
  have h2 := addIfNeeded_fields (duplicateProtection w r st.Content).1 st.Account.Acct
  simp only [prepared]
  exact ⟨h2.1.trans h1.1, h2.2.1.trans h1.2.1, h2.2.2.1.trans h1.2.2.1⟩

theorem prepared_actions (w : World) (r : Repository) (st : Status) :
    actions (prepared w r st).2 = [] ∧ reblogs (prepared w r st).2 = [] ∧
    posts (prepared w r st).2 = [] := by
  have h1 := duplicateProtection_actions w r st.Content
  have h2 := addIfNeeded_actions (duplicateProtection w r st.Content).1 st.Account.Acct
  simp [prepared, actions_append, reblogs_append, posts_append, h1, h2]

theorem prepared_users (w : World) (r : Repository) (st : Status) (a : String) :
    exist_in_database (prepared w r st).1 a = true ↔
      (a = st.Account.Acct ∨ exist_in_database r a = true) := by
  have h1 := (duplicateProtection_fields w r st.Content).2.2.2
  simp only [prepared, addIfNeeded, exist_in_database, h1]
  by_cases hk : r.users st.Account.Acct = true
  · simp only [hk, Bool.not_true, Bool.false_eq_true, if_false, h1]
    constructor
    · exact Or.inr
    · rintro (h | h)
      · rw [h]; exact hk
      · exact h
  · simp only [hk, Bool.not_eq_true, Bool.not_false, if_true, add_to_db, h1]
    by_cases ha : a = st.Account.Acct <;> simp [ha]

theorem prepared_hashes (w : World) (r : Repository) (st : Status) (h : String) :
    check_msg_hash (prepared w r st).1 h = true ↔
      (h = w.sha512hex st.Content ∨ check_msg_hash r h = true) := by
  have h2 := (addIfNeeded_fields (duplicateProtection w r st.Content).1 st.Account.Acct).2.2.2
  simp only [prepared, check_msg_hash, h2]
  simp only [duplicateProtection, check_msg_hash]
  by_cases hk : r.hashes (w.sha512hex st.Content) = true
  · simp only [hk, Bool.not_true, Bool.false_eq_true, if_false]
    constructor
    · exact Or.inr
    · rintro (h' | h')
      · rw [h']; exact hk
      · exact h'
  · simp only [hk, Bool.not_eq_true, Bool.not_false, if_true, save_msg_hash]
    by_cases ha : h = w.sha512hex st.Content <;> simp [ha]

theorem prepared_same (w : World) (r : Repository) (st : Status)
    (h1 : check_msg_hash r (w.sha512hex st.Content) = true)
    (h2 : exist_in_database r st.Account.Acct = true) : prepared w r st = (r, []) := by
  simp [prepared, duplicateProtection, addIfNeeded, h1, h2]

theorem prepared_calls (w : World) (r : Repository) (st : Status) :
    ∀ c ∈ (prepared w r st).2,
      c = .save_msg_hash (w.sha512hex st.Content) ∨ c = .add_to_db st.Account.Acct := by
  intro c hc
  simp only [prepared, duplicateProtection, addIfNeeded, List.mem_append] at hc
  rcases hc with hc | hc
  · split_ifs at hc <;> simp at hc
    exact Or.inl hc
  · split_ifs at hc <;> simp at hc
    all_goals exact Or.inr hc

/-! ## The branches of the boost path -/

theorem boostPath_disabled (conf : Config) (w : World) (b : Bot) (st : Status)
    (h1 : b.boostsenabled = false) : boostPath conf w b st = Step.done b [] := by
  simp [boostPath, h1]

theorem boostPath_native (conf : Config) (w : World) (b : Bot) (st : Status)
    (h2 : st.InReplyToID ≠ none) : boostPath conf w b st = Step.done b [] := by
  unfold boostPath
  split_ifs <;> simp_all

theorem boostPath_panic (conf : Config) (w : World) (b : Bot) (st : Status)
    (h1 : b.boostsenabled = true) (h2 : st.InReplyToID = none)
    (h3 : CheckAPReply w st.URL = none) :
    boostPath conf w b st = Step.panic b [.httpGet st.URL] := by
  simp [boostPath, h1, h2, h3]

theorem boostPath_apreply (conf : Config) (w : World) (b : Bot) (st : Status)
    (h1 : b.boostsenabled = true) (h2 : st.InReplyToID = none)
    (h3 : CheckAPReply w st.URL = some true) :
    boostPath conf w b st = Step.done b [.httpGet st.URL] := by
  simp [boostPath, h1, h2, h3]

theorem boostPath_denied (conf : Config) (w : World) (b : Bot) (st : Status)
    (h1 : b.boostsenabled = true) (h2 : st.InReplyToID = none)
    (h3 : CheckAPReply w st.URL = some false)
    (h4 : ¬ (check_order b.repo st.Account.Acct < conf.Order_limit ∧
      check_ticket b.repo st.Account.Acct > 0)) :
    boostPath conf w b st =
      Step.done { b with repo := (prepared w b.repo st).1 }
        (.httpGet st.URL :: (prepared w b.repo st).2) := by
  have hf := prepared_fields w b.repo st
  have ho : check_order (prepared w b.repo st).1 st.Account.Acct
      = check_order b.repo st.Account.Acct := by simp [check_order, hf.1]
  have ht : check_ticket (prepared w b.repo st).1 st.Account.Acct
      = check_ticket b.repo st.Account.Acct := by simp [check_ticket, hf.2.1]
  simp only [prepared] at ho ht
  simp only [boostPath, h1, h2, h3, prepared, ho, ht]
  by_cases h5 : check_order b.repo st.Account.Acct < conf.Order_limit
  · have h6 : ¬ check_ticket b.repo st.Account.Acct > 0 := fun h => h4 ⟨h5, h⟩
    simp [h5, h6]
  · simp [h5]

theorem boostPath_granted (conf : Config) (w : World) (b : Bot) (st : Status)
    (h1 : b.boostsenabled = true) (h2 : st.InReplyToID = none)
    (h3 : CheckAPReply w st.URL = some false)
    (h4 : check_order b.repo st.Account.Acct < conf.Order_limit)
    (h5 : check_ticket b.repo st.Account.Acct > 0) :
    boostPath conf w b st =
      Step.done
        { b with repo :=
            count_order (take_ticket (prepared w b.repo st).1 st.Account.Acct) st.Account.Acct }
        (.httpGet st.URL :: (prepared w b.repo st).2 ++
          [.take_ticket st.Account.Acct, .count_order st.Account.Acct, .Reblog st.ID]) := by
  have hf := prepared_fields w b.repo st
  have ho : check_order (prepared w b.repo st).1 st.Account.Acct
      = check_order b.repo st.Account.Acct := by simp [check_order, hf.1]
  have ht : check_ticket (prepared w b.repo st).1 st.Account.Acct
      = check_ticket b.repo st.Account.Acct := by simp [check_ticket, hf.2.1]
  simp only [prepared] at ho ht
  simp only [boostPath, h1, h2, h3, prepared, ho, ht]
  simp [h4, h5]

/-! ## The admin command and the admin loop -/

theorem adminCommand_three (content : String) (b : Bot) (t0 verb mID : String)
    (h : commandArgs content = [t0, verb, mID]) :
    adminCommand content b =
      if verb = "boost" then (b, [.Reblog mID])
      else if verb = "unboost" then (b, [.Unreblog mID])
      else if verb = "delete" then (b, [.DeleteStatus mID])
      else if verb = "disable" then ({ b with boostsenabled := false }, [])
      else if verb = "enable" then ({ b with boostsenabled := true }, [])
      else (b, []) := by
  simp [adminCommand, h]

theorem adminCommand_two (content : String) (b : Bot) (t0 verb : String)
    (h : commandArgs content = [t0, verb]) :
    adminCommand content b =
      if verb = "disable" then ({ b with boostsenabled := false }, [])
      else if verb = "enable" then ({ b with boostsenabled := true }, [])
      else (b, []) := by
  simp [adminCommand, h]

theorem adminCommand_other (content : String) (b : Bot)
    (h2 : (commandArgs content).length ≠ 2) (h3 : (commandArgs content).length ≠ 3) :
    adminCommand content b = (b, []) := by
  rcases hargs : commandArgs content with _ | ⟨t0, _ | ⟨v, _ | ⟨m, _ | ⟨x, r⟩⟩⟩⟩
  · simp [adminCommand, hargs]
  · simp [adminCommand, hargs]
  · simp [hargs] at h2
  · simp [hargs] at h3
  · simp [adminCommand, hargs]

/-- The shapes of the token list that the admin command distinguishes. -/
theorem commandArgs_shape (content : String) :
    (∃ t0 verb mID, commandArgs content = [t0, verb, mID]) ∨
    (∃ t0 verb, commandArgs content = [t0, verb]) ∨
    ((commandArgs content).length ≠ 2 ∧ (commandArgs content).length ≠ 3) := by
  rcases hargs : commandArgs content with _ | ⟨t0, _ | ⟨v, _ | ⟨m, _ | ⟨x, r⟩⟩⟩⟩
  · simp
  · simp
  · exact Or.inr (Or.inl ⟨t0, v, rfl⟩)
  · exact Or.inl ⟨t0, v, m, rfl⟩
  · simp

/-- The admin command never touches the repository. -/
theorem adminCommand_repo (content : String) (b : Bot) :
    (adminCommand content b).1.repo = b.repo := by
  rcases commandArgs_shape content with ⟨t0, verb, mID, h⟩ | ⟨t0, verb, h⟩ | ⟨h2, h3⟩
  · rw [adminCommand_three content b t0 verb mID h]
    split_ifs <;> rfl
  · rw [adminCommand_two content b t0 verb h]
    split_ifs <;> rfl
  · rw [adminCommand_other content b h2 h3]

/-- A reblog issued by the admin command is the execution of a three-token
boost command that names the reblogged ID. -/
theorem adminCommand_reblogs (content : String) (b : Bot) (id : String)
    (h : id ∈ reblogs (adminCommand content b).2) :
    ∃ t0, commandArgs content = [t0, "boost", id] := by
  rcases commandArgs_shape content with ⟨t0, verb, mID, heq⟩ | ⟨t0, verb, heq⟩ | ⟨h2, h3⟩
  · rw [adminCommand_three content b t0 verb mID heq] at h
    split_ifs at h with hv <;> simp [reblogs] at h
    exact ⟨t0, by rw [heq, hv, h]⟩
  · rw [adminCommand_two content b t0 verb heq] at h
    split_ifs at h <;> simp [reblogs] at h
  · rw [adminCommand_other content b h2 h3] at h
    simp [reblogs] at h

theorem adminLoop_not_admin (acct content : String) (admins : List String) (b : Bot)
    (h : acct ∉ admins) : adminLoop acct content admins b = (b, []) := by
  induction admins with
  | nil => rfl
  | cons a rest ih =>
    have ha : ¬ acct = a := fun e => h (by simp [e])
    have hr : acct ∉ rest := fun e => h (by simp [e])
    simp [adminLoop, ha, ih hr]

theorem adminLoop_repo (acct content : String) (admins : List String) (b : Bot) :
    (adminLoop acct content admins b).1.repo = b.repo := by
  induction admins generalizing b with
  | nil => rfl
  | cons a rest ih =>
    simp only [adminLoop]
    split_ifs
    · simp only [ih, adminCommand_repo]
    · exact ih b

theorem adminLoop_reblogs (acct content : String) (admins : List String) (b : Bot)
    (id : String) (h : id ∈ reblogs (adminLoop acct content admins b).2) :
    acct ∈ admins ∧ ∃ t0, commandArgs content = [t0, "boost", id] := by
  induction admins generalizing b with
  | nil => simp [adminLoop, reblogs] at h
  | cons a rest ih =>
    simp only [adminLoop] at h
    split_ifs at h with ha
    · refine ⟨by simp [ha], ?_⟩
      simp only [reblogs_append, List.mem_append] at h
      rcases h with h | h
      · exact adminCommand_reblogs content b id h
      · exact (ih _ h).2
    · exact ⟨List.mem_cons_of_mem _ (ih b h).1, (ih b h).2⟩

/-- When one evaluation of the command leaves the state as it is and makes
the calls `t`, the loop makes these calls once per entry equal to `acct`. -/
theorem adminLoop_fixed (acct content : String) (admins : List String) (b : Bot)
    (c : Call) (h : adminCommand content b = (b, [c])) :
    adminLoop acct content admins b = (b, List.replicate (admins.count acct) c) := by
  induction admins with
  | nil => rfl
  | cons a rest ih =>
    simp only [adminLoop]
    split_ifs with ha
    · subst ha
      simp [h, ih, List.replicate_succ]
    · have : ¬ (a == acct) = true := by
        simpa using fun e => ha e.symm
      simp [ih, List.count_cons, this]

theorem adminLoop_silent (acct content : String) (admins : List String) (b : Bot)
    (h : adminCommand content b = (b, [])) :
    adminLoop acct content admins b = (b, []) := by
  induction admins with
  | nil => rfl
  | cons a rest ih =>
    simp only [adminLoop]
    split_ifs
    · simp [h, ih]
    · exact ih

/-- When every evaluation of the command sets the toggle to `v` and makes no
call, the loop over a list that contains `acct` ends with the toggle at `v`. -/
theorem adminLoop_toggle (acct content : String) (v : Bool)
    (h : ∀ b : Bot, adminCommand content b = ({ b with boostsenabled := v }, []))
    (admins : List String) (b : Bot) :
    (adminLoop acct content admins b).2 = [] ∧
    (adminLoop acct content admins b).1.repo = b.repo ∧
    (acct ∈ admins → (adminLoop acct content admins b).1.boostsenabled = v) ∧
    (b.boostsenabled = v → (adminLoop acct content admins b).1.boostsenabled = v) := by
  induction admins generalizing b with
  | nil => simp [adminLoop]
  | cons a rest ih =>
    simp only [adminLoop]
    split_ifs with ha
    · have hi := ih { b with boostsenabled := v }
      simp only [h b, List.nil_append]
      exact ⟨hi.1, hi.2.1, fun _ => hi.2.2.2 rfl, fun _ => hi.2.2.2 rfl⟩
    · have hi := ih b
      refine ⟨hi.1, hi.2.1, fun hm => hi.2.2.1 ?_, hi.2.2.2⟩
      rcases List.mem_cons.mp hm with e | e
      · exact absurd e ha
      · exact e

/-! ## The notice path -/

theorem noticePath_spec (conf : Config) (w : World) (b : Bot) (st : Status) :
    (noticePath conf w b st).bot.boostsenabled = b.boostsenabled ∧
    (noticePath conf w b st).panicked = false ∧
    reblogs (noticePath conf w b st).trace = [] ∧
    (actions (noticePath conf w b st).trace = [] ∨
      actions (noticePath conf w b st).trace =
        [.postToot ("@" ++ st.Account.Acct ++ " " ++ conf.NotFollowedMessage) "direct"
          (w.postToot ("@" ++ st.Account.Acct ++ " " ++ conf.NotFollowedMessage) "direct")]) := by
  have ha := addIfNeeded_actions b.repo st.Account.Acct
  simp only [actions] at ha
  simp only [noticePath]
  split_ifs <;>
    simp [Step.done, reblogs, reblogs_append, actions, Call.isAction, ha.1, ha.2.1]

/-! ## Dispatch of a notification -/

theorem processEvent_follow (conf : Config) (w : World) (b : Bot) (n : Notification)
    (hty : n.Type_ = "follow") :
    processEvent conf w b (.notification n) = onFollow conf w b n := by
  have hp : (onFollow conf w b n).panicked = false := by
    simp only [onFollow]
    split_ifs <;> rfl
  simp [processEvent, onNotification, hty, hp]

theorem processEvent_mention (conf : Config) (w : World) (b : Bot) (n : Notification)
    (hty : n.Type_ = "mention") :
    processEvent conf w b (.notification n) = onMention conf w b n := by
  simp [processEvent, onNotification, hty, Step.done]

theorem onMention_public (conf : Config) (w : World) (b : Bot) (n : Notification)
    (st : Status) (hst : n.Status = some st) (hfol : followedBy w st = some true)
    (hvis : st.Visibility = "public") :
    onMention conf w b n =
      { boostPath conf w b st with
        trace := .GetAccountRelationships [st.Account.ID] :: (boostPath conf w b st).trace } := by
  simp [onMention, hst, hfol, hvis]

theorem onMention_direct (conf : Config) (w : World) (b : Bot) (n : Notification)
    (st : Status) (hst : n.Status = some st) (hfol : followedBy w st = some true)
    (hvis : st.Visibility = "direct") :
    onMention conf w b n =
      Step.done (adminLoop st.Account.Acct st.Content conf.Admins b).1
        (.GetAccountRelationships [st.Account.ID] ::
          (adminLoop st.Account.Acct st.Content conf.Admins b).2) := by
  simp [onMention, hst, hfol, hvis, adminPath, Step.done]

theorem onMention_stranger (conf : Config) (w : World) (b : Bot) (n : Notification)
    (st : Status) (hst : n.Status = some st) (hfol : followedBy w st = some false) :
    onMention conf w b n =
      { noticePath conf w b st with
        trace := .GetAccountRelationships [st.Account.ID] :: (noticePath conf w b st).trace } := by
  simp [onMention, hst, hfol]

theorem direct_mention_toggle (conf : Config) (w : World) (b : Bot) (n : Notification)
    (st : Status) (v : Bool) (hty : n.Type_ = "mention") (hst : n.Status = some st)
    (hfol : followedBy w st = some true) (hvis : st.Visibility = "direct")
    (hadm : st.Account.Acct ∈ conf.Admins)
    (h : ∀ b : Bot, adminCommand st.Content b = ({ b with boostsenabled := v }, [])) :
    (processEvent conf w b (.notification n)).bot.boostsenabled = v ∧
    actions (processEvent conf w b (.notification n)).trace = [] ∧
    (processEvent conf w b (.notification n)).bot.repo = b.repo ∧
    (processEvent conf w b (.notification n)).panicked = false := by
  have hl := adminLoop_toggle st.Account.Acct st.Content v h conf.Admins b
  rw [processEvent_mention conf w b n hty, onMention_direct conf w b n st hst hfol hvis]
  refine ⟨hl.2.2.1 hadm, ?_, hl.2.1, rfl⟩
  simp only [Step.done, actions_query, hl.1]
  rfl

theorem adminCommand_verb_toggle (content : String) (verb : String) (v : Bool)
    (hv : (verb = "disable" ∧ v = false) ∨ (verb = "enable" ∧ v = true))
    (hargs : (∃ t0, commandArgs content = [t0, verb]) ∨
      (∃ t0 t2, commandArgs content = [t0, verb, t2])) (b : Bot) :
    adminCommand content b = ({ b with boostsenabled := v }, []) := by
  rcases hargs with ⟨t0, h⟩ | ⟨t0, t2, h⟩
  · rw [adminCommand_two content b t0 verb h]
    rcases hv with ⟨h1, h2⟩ | ⟨h1, h2⟩ <;> subst h1 <;> subst h2 <;> simp
  · rw [adminCommand_three content b t0 verb t2 h]
    rcases hv with ⟨h1, h2⟩ | ⟨h1, h2⟩ <;> subst h1 <;> subst h2 <;> simp

theorem RunBot_two_bot (conf : Config) (b : Bot) (w1 w2 : World) (e1 e2 : Event)
    (h : (processEvent conf w1 b e1).panicked = false) :
    (RunBot conf b [(w1, e1), (w2, e2)]).bot
      = (processEvent conf w2 (processEvent conf w1 b e1).bot e2).bot := by
  simp only [RunBot, h, Bool.false_eq_true, if_false]
  split_ifs <;> rfl

theorem RunBot_two_trace (conf : Config) (b : Bot) (w1 w2 : World) (e1 e2 : Event)
    (h : (processEvent conf w1 b e1).panicked = false) :
    (RunBot conf b [(w1, e1), (w2, e2)]).trace
      = (processEvent conf w1 b e1).trace
        ++ (processEvent conf w2 (processEvent conf w1 b e1).bot e2).trace := by
  simp only [RunBot, h, Bool.false_eq_true, if_false]
  split_ifs <;> simp [Step.done]

/-! ## The follow branch -/

theorem follow_known (conf : Config) (w : World) (b : Bot) (n : Notification)
    (hty : n.Type_ = "follow") (h : exist_in_database b.repo n.Account.Acct = true) :
    processEvent conf w b (.notification n) = Step.done b [] := by
  rw [processEvent_follow conf w b n hty]
  simp [onFollow, h]

theorem follow_new (conf : Config) (w : World) (b : Bot) (n : Notification)
    (hty : n.Type_ = "follow") (h : exist_in_database b.repo n.Account.Acct = false) :
    processEvent conf w b (.notification n) =
      Step.done { b with repo := add_to_db b.repo n.Account.Acct }
        [.add_to_db n.Account.Acct,
          .postToot (conf.WelcomeMessage ++ " @" ++ n.Account.Acct) "public"
            (w.postToot (conf.WelcomeMessage ++ " @" ++ n.Account.Acct) "public")] := by
  rw [processEvent_follow conf w b n hty]
  simp [onFollow, h]

theorem exist_add_to_db (r : Repository) (acct : String) :
    exist_in_database (add_to_db r acct) acct = true := by
  simp [exist_in_database, add_to_db]

/-! ## The amplification path: claims C1 to C3 -/

theorem public_mention_granted (conf : Config) (w : World) (b : Bot) (n : Notification)
    (st : Status) (hty : n.Type_ = "mention") (hst : n.Status = some st)
    (hfol : followedBy w st = some true) (hvis : st.Visibility = "public")
    (hg : gateOpen conf w b st) :
    processEvent conf w b (.notification n) =
      Step.done
        { b with repo :=
            count_order (take_ticket (prepared w b.repo st).1 st.Account.Acct) st.Account.Acct }
        (.GetAccountRelationships [st.Account.ID] :: .httpGet st.URL ::
          (prepared w b.repo st).2 ++
          [.take_ticket st.Account.Acct, .count_order st.Account.Acct, .Reblog st.ID]) := by
  obtain ⟨h1, h2, h3, h4, h5⟩ := hg
  rw [processEvent_mention conf w b n hty, onMention_public conf w b n st hst hfol hvis,
    boostPath_granted conf w b st h1 h2 h3 h4 h5]
  simp [Step.done]

theorem public_mention_refused (conf : Config) (w : World) (b : Bot) (n : Notification)
    (st : Status) (hty : n.Type_ = "mention") (hst : n.Status = some st)
    (hfol : followedBy w st = some true) (hvis : st.Visibility = "public")
    (hn : ¬ gateOpen conf w b st) :
    actions (processEvent conf w b (.notification n)).trace = [] ∧
    reblogs (processEvent conf w b (.notification n)).trace = [] := by
  rw [processEvent_mention conf w b n hty, onMention_public conf w b n st hst hfol hvis]
  by_cases h1 : b.boostsenabled = true
  · by_cases h2 : st.InReplyToID = none
    · cases h3 : CheckAPReply w st.URL with
      | none =>
        simp [boostPath_panic conf w b st h1 h2 h3, Step.panic, reblogs, actions, Call.isAction]
      | some v =>
        cases v
        · have h4 : ¬ (check_order b.repo st.Account.Acct < conf.Order_limit ∧
              check_ticket b.repo st.Account.Acct > 0) :=
            fun h => hn ⟨h1, h2, h3, h.1, h.2⟩
          rw [boostPath_denied conf w b st h1 h2 h3 h4]
          have hp := prepared_actions w b.repo st
          simp only [actions] at hp
          simp [Step.done, reblogs, actions, Call.isAction, hp.1, hp.2.1]
        · simp [boostPath_apreply conf w b st h1 h2 h3, Step.done, reblogs, actions,
            Call.isAction]
    · simp [boostPath_native conf w b st h2, Step.done, reblogs, actions, Call.isAction]
  · have h1f : b.boostsenabled = false := by simpa using h1
    simp [boostPath_disabled conf w b st h1f, Step.done, reblogs, actions, Call.isAction]

/-- C1: for a mention whose sender follows the bot and whose visibility is
public, in every state, the reblog of the status of the mention is issued if
and only if boostsenabled is true, the native reply pointer is nil,
CheckAPReply returns false, the order count of the sender is below the order
limit and its ticket balance is positive; when these hold the reblogs issued
are exactly that one, and otherwise there is none. -/
theorem C1_reblog_iff_gate (conf : Config) (w : World) (b : Bot) (n : Notification)
    (st : Status) (hty : n.Type_ = "mention") (hst : n.Status = some st)
    (hfol : followedBy w st = some true) (hvis : st.Visibility = "public") :
    (st.ID ∈ reblogs (processEvent conf w b (.notification n)).trace ↔
      (b.boostsenabled = true ∧ st.InReplyToID = none ∧ CheckAPReply w st.URL = some false ∧
        check_order b.repo st.Account.Acct < conf.Order_limit ∧
        check_ticket b.repo st.Account.Acct > 0)) ∧
    ((b.boostsenabled = true ∧ st.InReplyToID = none ∧ CheckAPReply w st.URL = some false ∧
        check_order b.repo st.Account.Acct < conf.Order_limit ∧
        check_ticket b.repo st.Account.Acct > 0) →
      reblogs (processEvent conf w b (.notification n)).trace = [st.ID]) ∧
    (¬ (b.boostsenabled = true ∧ st.InReplyToID = none ∧ CheckAPReply w st.URL = some false ∧
        check_order b.repo st.Account.Acct < conf.Order_limit ∧
        check_ticket b.repo st.Account.Acct > 0) →
      reblogs (processEvent conf w b (.notification n)).trace = []) := by
  have hyes : gateOpen conf w b st →
      reblogs (processEvent conf w b (.notification n)).trace = [st.ID] := by
    intro hg
    rw [public_mention_granted conf w b n st hty hst hfol hvis hg]
    simp [Step.done, reblogs, reblogs_append, (prepared_actions w b.repo st).2.1]
  have hno : ¬ gateOpen conf w b st →
      reblogs (processEvent conf w b (.notification n)).trace = [] :=
    fun hn => (public_mention_refused conf w b n st hty hst hfol hvis hn).2
  refine ⟨⟨fun hmem => ?_, fun hg => ?_⟩, hyes, hno⟩
  · by_contra hn
    rw [hno hn] at hmem
    simp at hmem
  · rw [hyes hg]
    simp

/-- C1 at the scenario of the specification: bob follows, public mention, no
reply pointer, order count 0, one ticket, order limit 5. -/
theorem C1_reblog_iff_gate_witness :
    (scenarioMention "bob" "109" "hello" "public" none).Type_ = "mention" ∧
    followedBy (scenarioWorld true) (scenarioStatus "bob" "109" "hello" "public" none)
      = some true ∧
    reblogs (processEvent scenarioConf (scenarioWorld true) (Bot.start (scenarioRepo 1))
      (.notification (scenarioMention "bob" "109" "hello" "public" none))).trace = ["109"] :=
  ⟨by decide, by decide,
    (C1_reblog_iff_gate scenarioConf (scenarioWorld true) (Bot.start (scenarioRepo 1))
      (scenarioMention "bob" "109" "hello" "public" none)
      (scenarioStatus "bob" "109" "hello" "public" none)
      (by decide) rfl (by decide) (by decide)).2.1
      ⟨by decide, by decide, by decide, by decide, by decide⟩⟩

/-- C2: when a reblog is issued on the public-follower path, the ticket
balance of the sender after the event is its value before minus 1 and the
order count of the sender after the event is its value before plus 1; the
trace holds exactly one call of take_ticket and exactly one call of
count_order for the sender. -/
theorem C2_grant_spends_one (conf : Config) (w : World) (b : Bot) (n : Notification)
    (st : Status) (hty : n.Type_ = "mention") (hst : n.Status = some st)
    (hfol : followedBy w st = some true) (hvis : st.Visibility = "public")
    (hre : reblogs (processEvent conf w b (.notification n)).trace ≠ []) :
    check_ticket (processEvent conf w b (.notification n)).bot.repo st.Account.Acct
      = check_ticket b.repo st.Account.Acct - 1 ∧
    check_order (processEvent conf w b (.notification n)).bot.repo st.Account.Acct
      = check_order b.repo st.Account.Acct + 1 ∧
    (processEvent conf w b (.notification n)).trace.count (.take_ticket st.Account.Acct) = 1 ∧
    (processEvent conf w b (.notification n)).trace.count (.count_order st.Account.Acct) = 1 := by
  have hg : gateOpen conf w b st := by
    by_contra hn
    exact hre (public_mention_refused conf w b n st hty hst hfol hvis hn).2
  have hf := prepared_fields w b.repo st
  have hc := prepared_calls w b.repo st
  have ht : (prepared w b.repo st).2.count (.take_ticket st.Account.Acct) = 0 := by
    rw [List.count_eq_zero]
    intro hm
    rcases hc _ hm with h | h <;> cases h
  have ho : (prepared w b.repo st).2.count (.count_order st.Account.Acct) = 0 := by
    rw [List.count_eq_zero]
    intro hm
    rcases hc _ hm with h | h <;> cases h
  rw [public_mention_granted conf w b n st hty hst hfol hvis hg]
  refine ⟨?_, ?_, ?_, ?_⟩
  · simp [Step.done, check_ticket, count_order, take_ticket, hf.2.1]
  · simp [Step.done, check_order, count_order, take_ticket, hf.1]
  · simp [Step.done, List.count_cons, List.count_append, ht]
  · simp [Step.done, List.count_cons, List.count_append, ho]

/-- C2 at the scenario of the specification: bob holds one ticket and has
order count 0; afterwards the ticket balance is 0 and the order count is 1. -/
theorem C2_grant_spends_one_witness :
    reblogs (processEvent scenarioConf (scenarioWorld true) (Bot.start (scenarioRepo 1))
      (.notification (scenarioMention "bob" "109" "hello" "public" none))).trace ≠ [] ∧
    check_ticket (processEvent scenarioConf (scenarioWorld true) (Bot.start (scenarioRepo 1))
      (.notification (scenarioMention "bob" "109" "hello" "public" none))).bot.repo "bob"
      = 1 - 1 ∧
    check_order (processEvent scenarioConf (scenarioWorld true) (Bot.start (scenarioRepo 1))
      (.notification (scenarioMention "bob" "109" "hello" "public" none))).bot.repo "bob"
      = 0 + 1 :=
  ⟨by decide,
    (C2_grant_spends_one scenarioConf (scenarioWorld true) (Bot.start (scenarioRepo 1))
      (scenarioMention "bob" "109" "hello" "public" none)
      (scenarioStatus "bob" "109" "hello" "public" none)
      (by decide) rfl (by decide) (by decide) (by decide)).1,
    (C2_grant_spends_one scenarioConf (scenarioWorld true) (Bot.start (scenarioRepo 1))
      (scenarioMention "bob" "109" "hello" "public" none)
      (scenarioStatus "bob" "109" "hello" "public" none)
      (by decide) rfl (by decide) (by decide) (by decide)).2.1⟩

/-- C3, as stated, fails: bob follows, the mention is public, boosts are
enabled, there is no reply, and bob holds no ticket. No reblog is issued, but
the digest of the content and the record of bob, both absent before the event,
are in the repository after it. -/
theorem C3_counterexample :
    followedBy (scenarioWorld true) (scenarioStatus "bob" "109" "hello" "public" none)
      = some true ∧
    (Bot.start (scenarioRepo 0)).boostsenabled = true ∧
    CheckAPReply (scenarioWorld true) (scenarioStatus "bob" "109" "hello" "public" none).URL
      = some false ∧
    check_ticket (Bot.start (scenarioRepo 0)).repo "bob" ≤ 0 ∧
    reblogs (processEvent scenarioConf (scenarioWorld true) (Bot.start (scenarioRepo 0))
      (.notification (scenarioMention "bob" "109" "hello" "public" none))).trace = [] ∧
    check_msg_hash (Bot.start (scenarioRepo 0)).repo "sha512:hello" = false ∧
    check_msg_hash (processEvent scenarioConf (scenarioWorld true) (Bot.start (scenarioRepo 0))
      (.notification (scenarioMention "bob" "109" "hello" "public" none))).bot.repo
      "sha512:hello" = true ∧
    exist_in_database (Bot.start (scenarioRepo 0)).repo "bob" = false ∧
    exist_in_database (processEvent scenarioConf (scenarioWorld true) (Bot.start (scenarioRepo 0))
      (.notification (scenarioMention "bob" "109" "hello" "public" none))).bot.repo
      "bob" = true ∧
    (processEvent scenarioConf (scenarioWorld true) (Bot.start (scenarioRepo 0))
      (.notification (scenarioMention "bob" "109" "hello" "public" none))).bot.repo.hashes
      ≠ (Bot.start (scenarioRepo 0)).repo.hashes := by
  refine ⟨by decide, by decide, by decide, by decide, by decide, by decide, by decide,
    by decide, by decide, fun h => ?_⟩
  have h2 := congrFun h "sha512:hello"
  revert h2
  decide

/-- C3, amended: a public mention of a follower that passes the toggle and
the reply checks and is denied by the quota gate issues no reblog and no other
action, and leaves every order counter, every ticket balance, every notice
flag and boostsenabled as they were. The account records gain at most the
record of the sender and the fingerprint set gains at most the digest of the
content (both are written before the gate); when both were present already,
the whole state is unchanged. -/
theorem C3_quota_denied (conf : Config) (w : World) (b : Bot) (n : Notification)
    (st : Status) (hty : n.Type_ = "mention") (hst : n.Status = some st)
    (hfol : followedBy w st = some true) (hvis : st.Visibility = "public")
    (h1 : b.boostsenabled = true) (h2 : st.InReplyToID = none)
    (h3 : CheckAPReply w st.URL = some false)
    (h4 : conf.Order_limit ≤ check_order b.repo st.Account.Acct ∨
      check_ticket b.repo st.Account.Acct ≤ 0) :
    reblogs (processEvent conf w b (.notification n)).trace = [] ∧
    actions (processEvent conf w b (.notification n)).trace = [] ∧
    (processEvent conf w b (.notification n)).bot.repo.order = b.repo.order ∧
    (processEvent conf w b (.notification n)).bot.repo.ticket = b.repo.ticket ∧
    (processEvent conf w b (.notification n)).bot.repo.notice = b.repo.notice ∧
    (processEvent conf w b (.notification n)).bot.boostsenabled = b.boostsenabled ∧
    (∀ a, exist_in_database (processEvent conf w b (.notification n)).bot.repo a = true ↔
      (a = st.Account.Acct ∨ exist_in_database b.repo a = true)) ∧
    (∀ h, check_msg_hash (processEvent conf w b (.notification n)).bot.repo h = true ↔
      (h = w.sha512hex st.Content ∨ check_msg_hash b.repo h = true)) ∧
    (check_msg_hash b.repo (w.sha512hex st.Content) = true →
      exist_in_database b.repo st.Account.Acct = true →
      (processEvent conf w b (.notification n)).bot = b ∧
      writes (processEvent conf w b (.notification n)).trace = []) := by
  have hq : ¬ (check_order b.repo st.Account.Acct < conf.Order_limit ∧
      check_ticket b.repo st.Account.Acct > 0) := by
    rintro ⟨ha, hb⟩
    rcases h4 with h | h <;> omega
  have hn : ¬ gateOpen conf w b st := fun hg => hq ⟨hg.2.2.2.1, hg.2.2.2.2⟩
  have hact := public_mention_refused conf w b n st hty hst hfol hvis hn
  have hf := prepared_fields w b.repo st
  have heq : processEvent conf w b (.notification n) =
      Step.done { b with repo := (prepared w b.repo st).1 }
        (.GetAccountRelationships [st.Account.ID] :: .httpGet st.URL ::
          (prepared w b.repo st).2) := by
    rw [processEvent_mention conf w b n hty, onMention_public conf w b n st hst hfol hvis,
      boostPath_denied conf w b st h1 h2 h3 hq]
    simp [Step.done]
  refine ⟨hact.2, hact.1, ?_, ?_, ?_, ?_, ?_, ?_, ?_⟩
  · rw [heq]; exact hf.1
  · rw [heq]; exact hf.2.1
  · rw [heq]; exact hf.2.2
  · rw [heq]; rfl
  · intro a
    rw [heq]
    exact prepared_users w b.repo st a
  · intro h
    rw [heq]
    exact prepared_hashes w b.repo st h
  · intro hh hu
    rw [heq, prepared_same w b.repo st hh hu]
    simp [Step.done, writes, Call.isWrite]

/-- C3, amended, at the scenario of the specification with ticket balance 0:
no reblog and no other action. -/
theorem C3_quota_denied_witness :
    check_ticket (Bot.start (scenarioRepo 0)).repo "bob" ≤ 0 ∧
    reblogs (processEvent scenarioConf (scenarioWorld true) (Bot.start (scenarioRepo 0))
      (.notification (scenarioMention "bob" "109" "hello" "public" none))).trace = [] ∧
    actions (processEvent scenarioConf (scenarioWorld true) (Bot.start (scenarioRepo 0))
      (.notification (scenarioMention "bob" "109" "hello" "public" none))).trace = [] :=
  ⟨by decide,
    (C3_quota_denied scenarioConf (scenarioWorld true) (Bot.start (scenarioRepo 0))
      (scenarioMention "bob" "109" "hello" "public" none)
      (scenarioStatus "bob" "109" "hello" "public" none)
      (by decide) rfl (by decide) (by decide) (by decide) (by decide) (by decide)
      (Or.inr (by decide))).1,
    (C3_quota_denied scenarioConf (scenarioWorld true) (Bot.start (scenarioRepo 0))
      (scenarioMention "bob" "109" "hello" "public" none)
      (scenarioStatus "bob" "109" "hello" "public" none)
      (by decide) rfl (by decide) (by decide) (by decide) (by decide) (by decide)
      (Or.inr (by decide))).2.1⟩

/-! ## Replies and the admin channel: claims C4 to C8 -/

/-- C4, as stated, fails: alice is an administrator and follows the bot; her
direct mention is a reply (the native pointer is set), its status ID is 42 and
its content is the command to boost 42. The status of the mention itself is
reblogged. -/
theorem C4_counterexample :
    (scenarioStatus "alice" "42" "@bot boost 42" "direct" (some "41")).InReplyToID ≠ none ∧
    (scenarioStatus "alice" "42" "@bot boost 42" "direct" (some "41")).ID ∈
      reblogs (processEvent scenarioConf (scenarioWorld true) (Bot.start (scenarioRepo 1))
        (.notification (scenarioMention "alice" "42" "@bot boost 42" "direct" (some "41")))).trace :=
  ⟨by decide, by decide⟩

/-- C4, amended: while a mention whose native reply pointer is set is
processed, the amplification path issues no reblog; every reblog issued is the
execution of a boost command in a direct mention of a following administrator,
against the ID that the command names. In particular no reblog at all is issued
when the visibility is not direct, or the sender is not on the administrator
list, or the sender does not follow the bot. -/
theorem C4_reply_not_amplified (conf : Config) (w : World) (b : Bot) (n : Notification)
    (st : Status) (hty : n.Type_ = "mention") (hst : n.Status = some st)
    (hrep : st.InReplyToID ≠ none) :
    (∀ id ∈ reblogs (processEvent conf w b (.notification n)).trace,
      followedBy w st = some true ∧ st.Visibility = "direct" ∧
      st.Account.Acct ∈ conf.Admins ∧ ∃ t0, commandArgs st.Content = [t0, "boost", id]) ∧
    ((st.Visibility ≠ "direct" ∨ st.Account.Acct ∉ conf.Admins ∨ followedBy w st ≠ some true) →
      reblogs (processEvent conf w b (.notification n)).trace = []) := by
  have key : ∀ id ∈ reblogs (processEvent conf w b (.notification n)).trace,
      followedBy w st = some true ∧ st.Visibility = "direct" ∧
      st.Account.Acct ∈ conf.Admins ∧ ∃ t0, commandArgs st.Content = [t0, "boost", id] := by
    intro id hid
    rw [processEvent_mention conf w b n hty] at hid
    rcases hfol : followedBy w st with _ | _ | _
    · simp [onMention, hst, hfol, Step.panic, reblogs] at hid
    · rw [onMention_stranger conf w b n st hst hfol] at hid
      simp [reblogs, (noticePath_spec conf w b st).2.2.1] at hid
    · by_cases hpub : st.Visibility = "public"
      · rw [onMention_public conf w b n st hst hfol hpub, boostPath_native conf w b st hrep] at hid
        simp [Step.done, reblogs] at hid
      · by_cases hdir : st.Visibility = "direct"
        · rw [onMention_direct conf w b n st hst hfol hdir] at hid
          simp only [Step.done, reblogs] at hid
          have h := adminLoop_reblogs st.Account.Acct st.Content conf.Admins b id hid
          exact ⟨rfl, hdir, h.1, h.2⟩
        · simp [onMention, hst, hfol, hpub, hdir, Step.done, reblogs] at hid
  refine ⟨key, fun hor => ?_⟩
  rcases hre : reblogs (processEvent conf w b (.notification n)).trace with _ | ⟨id, rest⟩
  · rfl
  · have h := key id (by rw [hre]; simp)
    rcases hor with h1 | h1 | h1
    · exact absurd h.2.1 h1
    · exact absurd h.2.2.1 h1
    · exact absurd h.1 h1

/-- C4, amended, at a public reply of the follower bob who holds a ticket: no
reblog is issued. -/
theorem C4_reply_not_amplified_witness :
    (scenarioStatus "bob" "109" "hello" "public" (some "108")).InReplyToID ≠ none ∧
    reblogs (processEvent scenarioConf (scenarioWorld true) (Bot.start (scenarioRepo 1))
      (.notification (scenarioMention "bob" "109" "hello" "public" (some "108")))).trace = [] :=
  ⟨by decide,
    (C4_reply_not_amplified scenarioConf (scenarioWorld true) (Bot.start (scenarioRepo 1))
      (scenarioMention "bob" "109" "hello" "public" (some "108"))
      (scenarioStatus "bob" "109" "hello" "public" (some "108"))
      (by decide) rfl (by decide)).2 (Or.inl (by decide))⟩

/-- C5, as stated, fails: carol is not an administrator and does not follow
the bot; her direct mention, whose content is a well-formed boost command, is
answered with a post (the notice to follow first). -/
theorem C5_counterexample :
    (scenarioStatus "carol" "50" "@bot boost 42" "direct" none).Visibility = "direct" ∧
    (scenarioStatus "carol" "50" "@bot boost 42" "direct" none).Account.Acct
      ∉ scenarioConf.Admins ∧
    actions (processEvent scenarioConf (scenarioWorld false) (Bot.start (scenarioRepo 1))
      (.notification (scenarioMention "carol" "50" "@bot boost 42" "direct" none))).trace
      = [.postToot "@carol please follow first" "direct" false] :=
  ⟨by decide, by decide, by decide⟩

/-- C5, amended: a direct mention whose sender is not on the administrator
list leaves boostsenabled unchanged and triggers no reblog, unreblog or
delete, whatever its content. When the sender follows the bot it triggers no
action at all and changes no state; when the sender does not follow the bot
the only action possible is the single post of the follow notice, with
visibility direct. -/
theorem C5_non_admin_direct (conf : Config) (w : World) (b : Bot) (n : Notification)
    (st : Status) (hty : n.Type_ = "mention") (hst : n.Status = some st)
    (hvis : st.Visibility = "direct") (hadm : st.Account.Acct ∉ conf.Admins) :
    (processEvent conf w b (.notification n)).bot.boostsenabled = b.boostsenabled ∧
    (actions (processEvent conf w b (.notification n)).trace = [] ∨
      actions (processEvent conf w b (.notification n)).trace =
        [.postToot ("@" ++ st.Account.Acct ++ " " ++ conf.NotFollowedMessage) "direct"
          (w.postToot ("@" ++ st.Account.Acct ++ " " ++ conf.NotFollowedMessage) "direct")]) ∧
    (followedBy w st ≠ some false →
      actions (processEvent conf w b (.notification n)).trace = [] ∧
      (processEvent conf w b (.notification n)).bot = b) := by
  rw [processEvent_mention conf w b n hty]
  rcases hfol : followedBy w st with _ | _ | _
  · simp [onMention, hst, hfol, Step.panic, actions, Call.isAction]
  · rw [onMention_stranger conf w b n st hst hfol]
    have h := noticePath_spec conf w b st
    refine ⟨h.1, ?_, fun hne => absurd rfl hne⟩
    simp only [actions_query]
    exact h.2.2.2
  · rw [onMention_direct conf w b n st hst hfol hvis,
      adminLoop_not_admin st.Account.Acct st.Content conf.Admins b hadm]
    simp [Step.done, actions, Call.isAction]

/-- C5, amended, at a direct boost command of the follower bob, who is not
an administrator: no action, no change of state. -/
theorem C5_non_admin_direct_witness :
    (scenarioStatus "bob" "50" "@bot boost 42" "direct" none).Account.Acct
      ∉ scenarioConf.Admins ∧
    (actions (processEvent scenarioConf (scenarioWorld true) (Bot.start (scenarioRepo 1))
      (.notification (scenarioMention "bob" "50" "@bot boost 42" "direct" none))).trace = [] ∧
    (processEvent scenarioConf (scenarioWorld true) (Bot.start (scenarioRepo 1))
      (.notification (scenarioMention "bob" "50" "@bot boost 42" "direct" none))).bot
      = Bot.start (scenarioRepo 1)) :=
  ⟨by decide,
    (C5_non_admin_direct scenarioConf (scenarioWorld true) (Bot.start (scenarioRepo 1))
      (scenarioMention "bob" "50" "@bot boost 42" "direct" none)
      (scenarioStatus "bob" "50" "@bot boost 42" "direct" none)
      (by decide) rfl (by decide) (by decide)).2.2 (by decide)⟩

/-- C6, as stated, fails: the administrator list holds the handle of alice
twice, alice follows the bot and sends the direct mention with the three tokens
of the command to boost 42. The reblog of 42 is invoked twice. -/
theorem C6_counterexample :
    "alice" ∈ ["alice", "alice"] ∧
    commandArgs (scenarioStatus "alice" "50" "@bot boost 42" "direct" none).Content
      = ["@bot", "boost", "42"] ∧
    actions (processEvent { scenarioConf with Admins := ["alice", "alice"] }
      (scenarioWorld true) (Bot.start (scenarioRepo 1))
      (.notification (scenarioMention "alice" "50" "@bot boost 42" "direct" none))).trace
      = [.Reblog "42", .Reblog "42"] :=
  ⟨by decide, by decide, by decide⟩

/-- C6, amended: for a direct mention of a follower whose content splits into
exactly three tokens with second token boost (unboost, delete), the reblog
(unreblog, delete) of the third token is invoked once for every occurrence of
the handle of the sender in the administrator list, and nothing else is
invoked; hence exactly once when the handle is listed once. The state,
boostsenabled included, is unchanged. -/
theorem C6_admin_action (conf : Config) (w : World) (b : Bot) (n : Notification)
    (st : Status) (t0 verb mID : String) (hty : n.Type_ = "mention")
    (hst : n.Status = some st) (hfol : followedBy w st = some true)
    (hvis : st.Visibility = "direct") (hargs : commandArgs st.Content = [t0, verb, mID]) :
    (verb = "boost" →
      actions (processEvent conf w b (.notification n)).trace
        = List.replicate (conf.Admins.count st.Account.Acct) (.Reblog mID) ∧
      (conf.Admins.count st.Account.Acct = 1 →
        actions (processEvent conf w b (.notification n)).trace = [.Reblog mID])) ∧
    (verb = "unboost" →
      actions (processEvent conf w b (.notification n)).trace
        = List.replicate (conf.Admins.count st.Account.Acct) (.Unreblog mID) ∧
      (conf.Admins.count st.Account.Acct = 1 →
        actions (processEvent conf w b (.notification n)).trace = [.Unreblog mID])) ∧
    (verb = "delete" →
      actions (processEvent conf w b (.notification n)).trace
        = List.replicate (conf.Admins.count st.Account.Acct) (.DeleteStatus mID) ∧
      (conf.Admins.count st.Account.Acct = 1 →
        actions (processEvent conf w b (.notification n)).trace = [.DeleteStatus mID])) ∧
    ((verb = "boost" ∨ verb = "unboost" ∨ verb = "delete") →
      (processEvent conf w b (.notification n)).bot = b) := by
  have hcmd := adminCommand_three st.Content b t0 verb mID hargs
  have hfilter : ∀ (k : Nat) (c : Call), c.isAction = true →
      actions (List.replicate k c) = List.replicate k c := by
    intro k c hc
    simp [actions, List.filter_eq_self, hc]
  have hstep : ∀ c : Call, c.isAction = true → adminCommand st.Content b = (b, [c]) →
      actions (processEvent conf w b (.notification n)).trace
        = List.replicate (conf.Admins.count st.Account.Acct) c ∧
      (conf.Admins.count st.Account.Acct = 1 →
        actions (processEvent conf w b (.notification n)).trace = [c]) ∧
      (processEvent conf w b (.notification n)).bot = b := by
    intro c hc h
    have hl := adminLoop_fixed st.Account.Acct st.Content conf.Admins b c h
    rw [processEvent_mention conf w b n hty, onMention_direct conf w b n st hst hfol hvis, hl]
    refine ⟨?_, fun h1 => ?_, rfl⟩
    · simp only [Step.done, actions_query, hfilter _ c hc]
    · simp only [Step.done, actions_query, hfilter _ c hc, h1]
      rfl
  refine ⟨fun hv => ?_, fun hv => ?_, fun hv => ?_, fun hv => ?_⟩
  · have h := hstep (.Reblog mID) rfl (by rw [hcmd]; simp [hv])
    exact ⟨h.1, h.2.1⟩
  · have h := hstep (.Unreblog mID) rfl (by rw [hcmd]; simp [hv])
    exact ⟨h.1, h.2.1⟩
  · have h := hstep (.DeleteStatus mID) rfl (by rw [hcmd]; simp [hv])
    exact ⟨h.1, h.2.1⟩
  · rcases hv with hv | hv | hv
    · exact (hstep (.Reblog mID) rfl (by rw [hcmd]; simp [hv])).2.2
    · exact (hstep (.Unreblog mID) rfl (by rw [hcmd]; simp [hv])).2.2
    · exact (hstep (.DeleteStatus mID) rfl (by rw [hcmd]; simp [hv])).2.2

/-- C6, amended, at the scenario of the specification: the administrator
alice, listed once, sends the command to boost 42; the reblog of 42 is the
only action. -/
theorem C6_admin_action_witness :
    commandArgs (scenarioStatus "alice" "50" "@bot boost 42" "direct" none).Content
      = ["@bot", "boost", "42"] ∧
    scenarioConf.Admins.count "alice" = 1 ∧
    actions (processEvent scenarioConf (scenarioWorld true) (Bot.start (scenarioRepo 1))
      (.notification (scenarioMention "alice" "50" "@bot boost 42" "direct" none))).trace
      = [.Reblog "42"] :=
  ⟨by decide, by decide,
    ((C6_admin_action scenarioConf (scenarioWorld true) (Bot.start (scenarioRepo 1))
      (scenarioMention "alice" "50" "@bot boost 42" "direct" none)
      (scenarioStatus "alice" "50" "@bot boost 42" "direct" none) "@bot" "boost" "42"
      (by decide) rfl (by decide) (by decide) (by decide)).1 rfl).2 (by decide)⟩

/-- C7: for a direct mention of a follower on the administrator list whose
content splits into two or three tokens with second token disable (enable),
boostsenabled is false (true) after the event, whatever it was before, and no
reblog, unreblog, delete or post is issued. The content
`<p>@bot disable</p>` parses to the tokens @bot, disable and sets
boostsenabled to false; a following `<p>@bot enable</p>` parses to @bot,
enable and sets it to true. -/
theorem C7_admin_toggle (conf : Config) (w : World) (b : Bot) (n : Notification)
    (st : Status) (hty : n.Type_ = "mention") (hst : n.Status = some st)
    (hfol : followedBy w st = some true) (hvis : st.Visibility = "direct")
    (hadm : st.Account.Acct ∈ conf.Admins) :
    (((∃ t0, commandArgs st.Content = [t0, "disable"]) ∨
        (∃ t0 t2, commandArgs st.Content = [t0, "disable", t2])) →
      (processEvent conf w b (.notification n)).bot.boostsenabled = false ∧
      actions (processEvent conf w b (.notification n)).trace = []) ∧
    (((∃ t0, commandArgs st.Content = [t0, "enable"]) ∨
        (∃ t0 t2, commandArgs st.Content = [t0, "enable", t2])) →
      (processEvent conf w b (.notification n)).bot.boostsenabled = true ∧
      actions (processEvent conf w b (.notification n)).trace = []) ∧
    commandArgs "<p>@bot disable</p>" = ["@bot", "disable"] ∧
    commandArgs "<p>@bot enable</p>" = ["@bot", "enable"] ∧
    (st.Content = "<p>@bot disable</p>" →
      (processEvent conf w b (.notification n)).bot.boostsenabled = false ∧
      ∀ (w2 : World) (n2 : Notification) (st2 : Status),
        n2.Type_ = "mention" → n2.Status = some st2 → followedBy w2 st2 = some true →
        st2.Visibility = "direct" → st2.Account.Acct ∈ conf.Admins →
        st2.Content = "<p>@bot enable</p>" →
        (RunBot conf b [(w, .notification n), (w2, .notification n2)]).bot.boostsenabled
          = true) := by
  have hdis : ((∃ t0, commandArgs st.Content = [t0, "disable"]) ∨
      (∃ t0 t2, commandArgs st.Content = [t0, "disable", t2])) →
      (processEvent conf w b (.notification n)).bot.boostsenabled = false ∧
      actions (processEvent conf w b (.notification n)).trace = [] ∧
      (processEvent conf w b (.notification n)).panicked = false := by
    intro hargs
    have h := direct_mention_toggle conf w b n st false hty hst hfol hvis hadm
      (adminCommand_verb_toggle st.Content "disable" false (Or.inl ⟨rfl, rfl⟩) hargs)
    exact ⟨h.1, h.2.1, h.2.2.2⟩
  have hen : ((∃ t0, commandArgs st.Content = [t0, "enable"]) ∨
      (∃ t0 t2, commandArgs st.Content = [t0, "enable", t2])) →
      (processEvent conf w b (.notification n)).bot.boostsenabled = true ∧
      actions (processEvent conf w b (.notification n)).trace = [] := by
    intro hargs
    have h := direct_mention_toggle conf w b n st true hty hst hfol hvis hadm
      (adminCommand_verb_toggle st.Content "enable" true (Or.inr ⟨rfl, rfl⟩) hargs)
    exact ⟨h.1, h.2.1⟩
  have hp1 : commandArgs "<p>@bot disable</p>" = ["@bot", "disable"] := by decide
  have hp2 : commandArgs "<p>@bot enable</p>" = ["@bot", "enable"] := by decide
  refine ⟨fun h => ⟨(hdis h).1, (hdis h).2.1⟩, hen, hp1, hp2, fun hc => ?_⟩
  have h1 := hdis (Or.inl ⟨"@bot", by rw [hc, hp1]⟩)
  refine ⟨h1.1, fun w2 n2 st2 hty2 hst2 hfol2 hvis2 hadm2 hc2 => ?_⟩
  rw [RunBot_two_bot conf b w w2 _ _ h1.2.2]
  exact (direct_mention_toggle conf w2 _ n2 st2 true hty2 hst2 hfol2 hvis2 hadm2
    (adminCommand_verb_toggle st2.Content "enable" true (Or.inr ⟨rfl, rfl⟩)
      (Or.inl ⟨"@bot", by rw [hc2, hp2]⟩))).1

/-- C7 at the scenario of the specification: the administrator alice sends
`<p>@bot disable</p>` and then `<p>@bot enable</p>`, starting with boosts
enabled: disabled after the first, enabled after the second. -/
theorem C7_admin_toggle_witness :
    (scenarioStatus "alice" "50" "<p>@bot disable</p>" "direct" none).Account.Acct
      ∈ scenarioConf.Admins ∧
    (processEvent scenarioConf (scenarioWorld true) (Bot.start (scenarioRepo 1))
      (.notification (scenarioMention "alice" "50" "<p>@bot disable</p>" "direct" none))
      ).bot.boostsenabled = false ∧
    (RunBot scenarioConf (Bot.start (scenarioRepo 1))
      [(scenarioWorld true,
          .notification (scenarioMention "alice" "50" "<p>@bot disable</p>" "direct" none)),
        (scenarioWorld true,
          .notification (scenarioMention "alice" "51" "<p>@bot enable</p>" "direct" none))]
      ).bot.boostsenabled = true :=
  ⟨by decide,
    ((C7_admin_toggle scenarioConf (scenarioWorld true) (Bot.start (scenarioRepo 1))
      (scenarioMention "alice" "50" "<p>@bot disable</p>" "direct" none)
      (scenarioStatus "alice" "50" "<p>@bot disable</p>" "direct" none)
      (by decide) rfl (by decide) (by decide) (by decide)).2.2.2.2 rfl).1,
    ((C7_admin_toggle scenarioConf (scenarioWorld true) (Bot.start (scenarioRepo 1))
      (scenarioMention "alice" "50" "<p>@bot disable</p>" "direct" none)
      (scenarioStatus "alice" "50" "<p>@bot disable</p>" "direct" none)
      (by decide) rfl (by decide) (by decide) (by decide)).2.2.2.2 rfl).2
      (scenarioWorld true) (scenarioMention "alice" "51" "<p>@bot enable</p>" "direct" none)
      (scenarioStatus "alice" "51" "<p>@bot enable</p>" "direct" none)
      (by decide) rfl (by decide) (by decide) (by decide) rfl⟩

/-- C8: for a direct mention of a follower whose content splits into a number
of tokens other than 2 or 3, or into 3 tokens whose second is none of boost,
unboost, delete, disable, enable, or into 2 tokens whose second is neither
disable nor enable, the state (boostsenabled and the repository) is unchanged
and no action and no repository write is issued; this holds in particular for
senders on the administrator list. -/
theorem C8_malformed_command (conf : Config) (w : World) (b : Bot) (n : Notification)
    (st : Status) (hty : n.Type_ = "mention") (hst : n.Status = some st)
    (hfol : followedBy w st = some true) (hvis : st.Visibility = "direct")
    (hbad : ((commandArgs st.Content).length ≠ 2 ∧ (commandArgs st.Content).length ≠ 3) ∨
      (∃ t0 verb mID, commandArgs st.Content = [t0, verb, mID] ∧
        verb ∉ ["boost", "unboost", "delete", "disable", "enable"]) ∨
      (∃ t0 verb, commandArgs st.Content = [t0, verb] ∧ verb ∉ ["disable", "enable"])) :
    (processEvent conf w b (.notification n)).bot = b ∧
    actions (processEvent conf w b (.notification n)).trace = [] ∧
    writes (processEvent conf w b (.notification n)).trace = [] ∧
    (processEvent conf w b (.notification n)).panicked = false := by
  have hcmd : adminCommand st.Content b = (b, []) := by
    rcases hbad with ⟨h2, h3⟩ | ⟨t0, verb, mID, h, hv⟩ | ⟨t0, verb, h, hv⟩
    · exact adminCommand_other st.Content b h2 h3
    · rw [adminCommand_three st.Content b t0 verb mID h]
      simp only [List.mem_cons, List.mem_singleton, not_or, List.mem_nil_iff, or_false] at hv
      simp [hv.1, hv.2.1, hv.2.2.1, hv.2.2.2.1, hv.2.2.2.2]
    · rw [adminCommand_two st.Content b t0 verb h]
      simp only [List.mem_cons, List.mem_singleton, not_or, List.mem_nil_iff, or_false] at hv
      simp [hv.1, hv.2]
  rw [processEvent_mention conf w b n hty, onMention_direct conf w b n st hst hfol hvis,
    adminLoop_silent st.Account.Acct st.Content conf.Admins b hcmd]
  exact ⟨rfl, rfl, rfl, rfl⟩

/-- C8 at three inputs of the administrator alice: one token, three tokens
with an unknown verb, and two tokens with the verb boost. -/
theorem C8_malformed_command_witness :
    (commandArgs "@bot" = ["@bot"] ∧
      (processEvent scenarioConf (scenarioWorld true) (Bot.start (scenarioRepo 1))
        (.notification (scenarioMention "alice" "50" "@bot" "direct" none))).bot
        = Bot.start (scenarioRepo 1)) ∧
    (commandArgs "@bot favourite 42" = ["@bot", "favourite", "42"] ∧
      actions (processEvent scenarioConf (scenarioWorld true) (Bot.start (scenarioRepo 1))
        (.notification (scenarioMention "alice" "50" "@bot favourite 42" "direct" none))).trace
        = []) ∧
    (commandArgs "@bot boost" = ["@bot", "boost"] ∧
      actions (processEvent scenarioConf (scenarioWorld true) (Bot.start (scenarioRepo 1))
        (.notification (scenarioMention "alice" "50" "@bot boost" "direct" none))).trace
        = []) :=
  ⟨⟨by decide,
      (C8_malformed_command scenarioConf (scenarioWorld true) (Bot.start (scenarioRepo 1))
        (scenarioMention "alice" "50" "@bot" "direct" none)
        (scenarioStatus "alice" "50" "@bot" "direct" none)
        (by decide) rfl (by decide) (by decide) (Or.inl (by decide))).1⟩,
    ⟨by decide,
      (C8_malformed_command scenarioConf (scenarioWorld true) (Bot.start (scenarioRepo 1))
        (scenarioMention "alice" "50" "@bot favourite 42" "direct" none)
        (scenarioStatus "alice" "50" "@bot favourite 42" "direct" none)
        (by decide) rfl (by decide) (by decide)
        (Or.inr (Or.inl ⟨"@bot", "favourite", "42", by decide, by decide⟩))).2.1⟩,
    ⟨by decide,
      (C8_malformed_command scenarioConf (scenarioWorld true) (Bot.start (scenarioRepo 1))
        (scenarioMention "alice" "50" "@bot boost" "direct" none)
        (scenarioStatus "alice" "50" "@bot boost" "direct" none)
        (by decide) rfl (by decide) (by decide)
        (Or.inr (Or.inr ⟨"@bot", "boost", by decide, by decide⟩))).2.1⟩⟩

/-! ## New followers: claims C9 and C10 -/

/-- C9, as stated, fails: in a starting state where alice has an account
record already, two follow events of alice make no record creation at all
(and no post), not exactly one. -/
theorem C9_counterexample :
    exist_in_database (Bot.start (add_to_db (scenarioRepo 1) "alice")).repo "alice" = true ∧
    writes (RunBot scenarioConf (Bot.start (add_to_db (scenarioRepo 1) "alice"))
      [(scenarioWorld true, .notification (scenarioFollow "alice")),
        (scenarioWorld true, .notification (scenarioFollow "alice"))]).trace = [] ∧
    posts (RunBot scenarioConf (Bot.start (add_to_db (scenarioRepo 1) "alice"))
      [(scenarioWorld true, .notification (scenarioFollow "alice")),
        (scenarioWorld true, .notification (scenarioFollow "alice"))]).trace = [] :=
  ⟨by decide, by decide, by decide⟩

/-- C9, amended: a follow event for an account that has an account record
already changes no state and makes no call. From a starting state in which
the account has no record, a follow event and then a second follow event for
the same account make exactly one record creation and exactly one welcome
post in total. From every starting state the two events make at most one
record creation and at most one post. -/
theorem C9_follow_idempotent (conf : Config) (b : Bot) (w1 w2 : World)
    (n1 n2 : Notification) (hty1 : n1.Type_ = "follow") (hty2 : n2.Type_ = "follow")
    (hsame : n2.Account.Acct = n1.Account.Acct) :
    (exist_in_database b.repo n1.Account.Acct = true →
      processEvent conf w1 b (.notification n1) = Step.done b []) ∧
    (exist_in_database b.repo n1.Account.Acct = false →
      writes (RunBot conf b [(w1, .notification n1), (w2, .notification n2)]).trace
        = [.add_to_db n1.Account.Acct] ∧
      (posts (RunBot conf b [(w1, .notification n1), (w2, .notification n2)]).trace).length
        = 1) ∧
    (writes (RunBot conf b [(w1, .notification n1), (w2, .notification n2)]).trace).length
      ≤ 1 ∧
    (posts (RunBot conf b [(w1, .notification n1), (w2, .notification n2)]).trace).length
      ≤ 1 := by
  have hnew : exist_in_database b.repo n1.Account.Acct = false →
      writes (RunBot conf b [(w1, .notification n1), (w2, .notification n2)]).trace
        = [.add_to_db n1.Account.Acct] ∧
      (posts (RunBot conf b [(w1, .notification n1), (w2, .notification n2)]).trace).length
        = 1 := by
    intro h
    have e1 := follow_new conf w1 b n1 hty1 h
    have hp : (processEvent conf w1 b (.notification n1)).panicked = false := by
      rw [e1]; rfl
    have hk : exist_in_database (processEvent conf w1 b (.notification n1)).bot.repo
        n2.Account.Acct = true := by
      rw [e1, hsame]
      exact exist_add_to_db b.repo n1.Account.Acct
    rw [RunBot_two_trace conf b w1 w2 _ _ hp,
      follow_known conf w2 _ n2 hty2 hk, e1]
    simp [Step.done, writes, posts, Call.isWrite]
  have hold : exist_in_database b.repo n1.Account.Acct = true →
      (RunBot conf b [(w1, .notification n1), (w2, .notification n2)]).trace = [] := by
    intro h
    have e1 := follow_known conf w1 b n1 hty1 h
    have hp : (processEvent conf w1 b (.notification n1)).panicked = false := by
      rw [e1]; rfl
    have hk : exist_in_database (processEvent conf w1 b (.notification n1)).bot.repo
        n2.Account.Acct = true := by
      rw [e1, hsame]
      exact h
    rw [RunBot_two_trace conf b w1 w2 _ _ hp,
      follow_known conf w2 _ n2 hty2 hk, e1]
    simp [Step.done]
  refine ⟨follow_known conf w1 b n1 hty1, hnew, ?_, ?_⟩
  · cases h : exist_in_database b.repo n1.Account.Acct
    · rw [(hnew h).1]; simp
    · rw [hold h]; simp [writes]
  · cases h : exist_in_database b.repo n1.Account.Acct
    · rw [(hnew h).2]
    · rw [hold h]; simp [posts]

/-- C9, amended, at two follow events of alice on the empty repository: one
record creation and one welcome post. -/
theorem C9_follow_idempotent_witness :
    exist_in_database (Bot.start (scenarioRepo 1)).repo (scenarioFollow "alice").Account.Acct
      = false ∧
    writes (RunBot scenarioConf (Bot.start (scenarioRepo 1))
      [(scenarioWorld true, .notification (scenarioFollow "alice")),
        (scenarioWorld true, .notification (scenarioFollow "alice"))]).trace
      = [.add_to_db "alice"] ∧
    (posts (RunBot scenarioConf (Bot.start (scenarioRepo 1))
      [(scenarioWorld true, .notification (scenarioFollow "alice")),
        (scenarioWorld true, .notification (scenarioFollow "alice"))]).trace).length = 1 :=
  ⟨by decide,
    (C9_follow_idempotent scenarioConf (Bot.start (scenarioRepo 1)) (scenarioWorld true)
      (scenarioWorld true) (scenarioFollow "alice") (scenarioFollow "alice")
      (by decide) (by decide) rfl).2.1 (by decide)⟩

/-- C10: for a follow event for an account with no account record, after the
event the record exists and exactly one post was attempted, with visibility
public and with the text made of the configured welcome message, a blank, an
at sign and the handle, so the text ends with the handle; this holds whether
the post failed or not, and the only write is the creation of the record. -/
theorem C10_first_follow (conf : Config) (w : World) (b : Bot) (n : Notification)
    (hty : n.Type_ = "follow") (hnew : exist_in_database b.repo n.Account.Acct = false) :
    exist_in_database (processEvent conf w b (.notification n)).bot.repo n.Account.Acct
      = true ∧
    posts (processEvent conf w b (.notification n)).trace
      = [(conf.WelcomeMessage ++ " @" ++ n.Account.Acct, "public",
          w.postToot (conf.WelcomeMessage ++ " @" ++ n.Account.Acct) "public")] ∧
    actions (processEvent conf w b (.notification n)).trace
      = [.postToot (conf.WelcomeMessage ++ " @" ++ n.Account.Acct) "public"
          (w.postToot (conf.WelcomeMessage ++ " @" ++ n.Account.Acct) "public")] ∧
    (∃ before : String,
      conf.WelcomeMessage ++ " @" ++ n.Account.Acct = before ++ n.Account.Acct) ∧
    writes (processEvent conf w b (.notification n)).trace = [.add_to_db n.Account.Acct] ∧
    (processEvent conf w b (.notification n)).panicked = false := by
  rw [follow_new conf w b n hty hnew]
  refine ⟨exist_add_to_db b.repo n.Account.Acct, rfl, rfl, ⟨conf.WelcomeMessage ++ " @", rfl⟩,
    rfl, rfl⟩

/-- C10 at the scenario of the specification, in a world where posting
fails: alice follows, she has no record; afterwards the record exists and the
one post attempted is the public welcome that names alice. -/
theorem C10_first_follow_witness :
    exist_in_database (Bot.start (scenarioRepo 1)).repo (scenarioFollow "alice").Account.Acct
      = false ∧
    exist_in_database
      (processEvent scenarioConf { scenarioWorld true with postToot := fun _ _ => true }
        (Bot.start (scenarioRepo 1)) (.notification (scenarioFollow "alice"))).bot.repo
      "alice" = true ∧
    posts (processEvent scenarioConf { scenarioWorld true with postToot := fun _ _ => true }
        (Bot.start (scenarioRepo 1)) (.notification (scenarioFollow "alice"))).trace
      = [("Welcome @alice", "public", true)] :=
  ⟨by decide,
    (C10_first_follow scenarioConf { scenarioWorld true with postToot := fun _ _ => true }
      (Bot.start (scenarioRepo 1)) (scenarioFollow "alice") (by decide) (by decide)).1,
    (C10_first_follow scenarioConf { scenarioWorld true with postToot := fun _ _ => true }
      (Bot.start (scenarioRepo 1)) (scenarioFollow "alice") (by decide) (by decide)).2.1⟩

/-! ## The notice path: claims C11 and C12 -/

theorem noticePath_eq_with (conf : Config) (w : World) (b : Bot) (st : Status) :
    noticePath conf w b st = noticePathWith mark_notice conf w b st := rfl

theorem got_notice_mark (r : Repository) (acct : String) :
    got_notice (mark_notice r acct) acct = 1 := by
  simp [got_notice, mark_notice]

theorem noticePath_noticed (conf : Config) (w : World) (b : Bot) (st : Status)
    (h : got_notice b.repo st.Account.Acct ≠ 0) :
    noticePath conf w b st = Step.done b [] := by
  simp [noticePath, h]

theorem noticePath_reply (conf : Config) (w : World) (b : Bot) (st : Status)
    (h : got_notice b.repo st.Account.Acct = 0) (hrep : st.InReplyToID ≠ none) :
    noticePath conf w b st =
      Step.done { b with repo := (addIfNeeded b.repo st.Account.Acct).1 }
        (addIfNeeded b.repo st.Account.Acct).2 := by
  simp [noticePath, h, hrep]

theorem noticePath_notify (conf : Config) (w : World) (b : Bot) (st : Status)
    (h : got_notice b.repo st.Account.Acct = 0) (hrep : st.InReplyToID = none) :
    noticePath conf w b st =
      Step.done
        { b with repo := mark_notice (addIfNeeded b.repo st.Account.Acct).1 st.Account.Acct }
        ((addIfNeeded b.repo st.Account.Acct).2 ++
          [.postToot ("@" ++ st.Account.Acct ++ " " ++ conf.NotFollowedMessage) "direct"
            (w.postToot ("@" ++ st.Account.Acct ++ " " ++ conf.NotFollowedMessage) "direct"),
            .mark_notice st.Account.Acct]) := by
  simp [noticePath, h, hrep, got_notice_mark]

theorem stranger_mention (conf : Config) (w : World) (b : Bot) (n : Notification)
    (st : Status) (hty : n.Type_ = "mention") (hst : n.Status = some st)
    (hfol : followedBy w st = some false) :
    processEvent conf w b (.notification n) =
      { noticePath conf w b st with
        trace := .GetAccountRelationships [st.Account.ID] :: (noticePath conf w b st).trace } := by
  rw [processEvent_mention conf w b n hty, onMention_stranger conf w b n st hst hfol]

theorem posts_query (ids : List String) (t : List Call) :
    posts (.GetAccountRelationships ids :: t) = posts t := rfl

theorem RunBot_cons (conf : Config) (b : Bot) (w : World) (ev : Event)
    (rest : List (World × Event)) (h : (processEvent conf w b ev).panicked = false) :
    RunBot conf b ((w, ev) :: rest) =
      { RunBot conf (processEvent conf w b ev).bot rest with
        trace := (processEvent conf w b ev).trace ++
          (RunBot conf (processEvent conf w b ev).bot rest).trace } := by
  simp [RunBot, h]

/-- Once the flag of the account is set, mentions of the account as a
stranger make no post and change nothing. -/
theorem stranger_quiet (conf : Config) (acct : String) (evs : List (World × Event)) (b : Bot)
    (hflag : got_notice b.repo acct ≠ 0) (hevs : ∀ p ∈ evs, plainStrangerMention acct p) :
    (RunBot conf b evs).bot = b ∧ actions (RunBot conf b evs).trace = [] ∧
    posts (RunBot conf b evs).trace = [] ∧ (RunBot conf b evs).panicked = false := by
  induction evs with
  | nil => exact ⟨rfl, rfl, rfl, rfl⟩
  | cons p rest ih =>
    obtain ⟨w, ev⟩ := p
    obtain ⟨n, st, hev, hty, hst, hacct, _, hfol⟩ := hevs (w, ev) (by simp)
    simp only at hev hfol
    subst hev
    have hstep : processEvent conf w b (.notification n) =
        Step.done b [.GetAccountRelationships [st.Account.ID]] := by
      rw [stranger_mention conf w b n st hty hst hfol,
        noticePath_noticed conf w b st (by rw [hacct]; exact hflag)]
      rfl
    have hp : (processEvent conf w b (.notification n)).panicked = false := by
      rw [hstep]; rfl
    have hi := ih (fun p hp => hevs p (List.mem_cons_of_mem _ hp))
    rw [RunBot_cons conf b w _ rest hp, hstep]
    simp only [Step.done] at hi ⊢
    refine ⟨hi.1, ?_, ?_, hi.2.2.2⟩
    · simp only [List.singleton_append, actions_query]
      exact hi.2.1
    · simp only [List.singleton_append, posts_query]
      exact hi.2.2.1

/-- The first mention of a stranger whose flag is unset and whose status is
not a reply. -/
theorem stranger_first (conf : Config) (w : World) (b : Bot) (n : Notification)
    (st : Status) (hty : n.Type_ = "mention") (hst : n.Status = some st)
    (hfol : followedBy w st = some false) (hflag : got_notice b.repo st.Account.Acct = 0)
    (hrep : st.InReplyToID = none) :
    posts (processEvent conf w b (.notification n)).trace
      = [("@" ++ st.Account.Acct ++ " " ++ conf.NotFollowedMessage, "direct",
          w.postToot ("@" ++ st.Account.Acct ++ " " ++ conf.NotFollowedMessage) "direct")] ∧
    actions (processEvent conf w b (.notification n)).trace
      = [.postToot ("@" ++ st.Account.Acct ++ " " ++ conf.NotFollowedMessage) "direct"
          (w.postToot ("@" ++ st.Account.Acct ++ " " ++ conf.NotFollowedMessage) "direct")] ∧
    got_notice (processEvent conf w b (.notification n)).bot.repo st.Account.Acct = 1 ∧
    (processEvent conf w b (.notification n)).panicked = false := by
  have ha := addIfNeeded_actions b.repo st.Account.Acct
  rw [stranger_mention conf w b n st hty hst hfol, noticePath_notify conf w b st hflag hrep]
  refine ⟨?_, ?_, got_notice_mark _ _, rfl⟩
  · simp only [Step.done, posts_query, posts_append, ha.2.2]
    rfl
  · simp only [Step.done, actions_query, actions_append, ha.1]
    rfl

/-- C11: for an account that does not follow the bot and whose notice flag is
unset, and a sequence of its mentions without native reply pointer: the first
mention sends exactly one post, the notice with visibility direct, and sets the
flag; the later mentions send nothing; the whole sequence sends exactly that
one post and no other action. No mention of a stranger sends more than one
outbound message, and this bound also holds for the text of lines 228-250 run
with any writer in the place of mark_notice, so also when the second marking
of lines 241-244 runs. -/
theorem C11_notice_once (conf : Config) (b : Bot) (acct : String) (w : World) (ev : Event)
    (rest : List (World × Event)) (hflag : got_notice b.repo acct = 0)
    (hfirst : plainStrangerMention acct (w, ev))
    (hrest : ∀ p ∈ rest, plainStrangerMention acct p) :
    posts (processEvent conf w b ev).trace
      = [("@" ++ acct ++ " " ++ conf.NotFollowedMessage, "direct",
          w.postToot ("@" ++ acct ++ " " ++ conf.NotFollowedMessage) "direct")] ∧
    got_notice (processEvent conf w b ev).bot.repo acct = 1 ∧
    posts (RunBot conf (processEvent conf w b ev).bot rest).trace = [] ∧
    posts (RunBot conf b ((w, ev) :: rest)).trace
      = [("@" ++ acct ++ " " ++ conf.NotFollowedMessage, "direct",
          w.postToot ("@" ++ acct ++ " " ++ conf.NotFollowedMessage) "direct")] ∧
    actions (RunBot conf b ((w, ev) :: rest)).trace
      = [.postToot ("@" ++ acct ++ " " ++ conf.NotFollowedMessage) "direct"
          (w.postToot ("@" ++ acct ++ " " ++ conf.NotFollowedMessage) "direct")] ∧
    (∀ (w1 : World) (b1 : Bot) (n1 : Notification) (st1 : Status),
      n1.Type_ = "mention" → n1.Status = some st1 → followedBy w1 st1 = some false →
      (actions (processEvent conf w1 b1 (.notification n1)).trace).length ≤ 1) ∧
    (∀ (mark : Repository → String → Repository) (w1 : World) (b1 : Bot) (st1 : Status),
      (actions (noticePathWith mark conf w1 b1 st1).trace).length ≤ 1) := by
  obtain ⟨n, st, hev, hty, hst, hacct, hrep, hfol⟩ := hfirst
  simp only at hev hfol
  subst hev
  subst hacct
  have h1 := stranger_first conf w b n st hty hst hfol hflag hrep
  have hq := stranger_quiet conf st.Account.Acct rest
    (processEvent conf w b (.notification n)).bot (by rw [h1.2.2.1]; decide) hrest
  have hwith : ∀ (mark : Repository → String → Repository) (w1 : World) (b1 : Bot)
      (st1 : Status), (actions (noticePathWith mark conf w1 b1 st1).trace).length ≤ 1 := by
    intro mark w1 b1 st1
    have ha := (addIfNeeded_actions b1.repo st1.Account.Acct).1
    simp only [noticePathWith]
    split_ifs <;> simp only [Step.done, actions_append, ha] <;> simp [actions, Call.isAction]
  refine ⟨h1.1, h1.2.2.1, hq.2.2.1, ?_, ?_, ?_, hwith⟩
  · rw [RunBot_cons conf b w _ rest h1.2.2.2]
    simp only [posts_append, h1.1, hq.2.2.1, List.append_nil]
  · rw [RunBot_cons conf b w _ rest h1.2.2.2]
    simp only [actions_append, h1.2.1, hq.2.1, List.append_nil]
  · intro w1 b1 n1 st1 hty1 hst1 hfol1
    rw [stranger_mention conf w1 b1 n1 st1 hty1 hst1 hfol1, noticePath_eq_with]
    simp only [actions_query]
    exact hwith mark_notice w1 b1 st1

/-- C11 at three mentions of carol, who does not follow the bot: one notice
in total. With a writer that leaves the flag unset, the text of lines 228-250
marks twice and still posts once. -/
theorem C11_notice_once_witness :
    got_notice (Bot.start (scenarioRepo 1)).repo "carol" = 0 ∧
    posts (RunBot scenarioConf (Bot.start (scenarioRepo 1))
      [(scenarioWorld false, .notification (scenarioMention "carol" "60" "hi" "public" none)),
        (scenarioWorld false, .notification (scenarioMention "carol" "61" "hi" "direct" none)),
        (scenarioWorld false, .notification (scenarioMention "carol" "62" "hi" "public" none))]
      ).trace = [("@carol please follow first", "direct", false)] ∧
    writes (noticePathWith (fun r _ => r) scenarioConf (scenarioWorld false)
      (Bot.start (scenarioRepo 1)) (scenarioStatus "carol" "60" "hi" "public" none)).trace
      = [.add_to_db "carol", .mark_notice "carol", .mark_notice "carol"] ∧
    (actions (noticePathWith (fun r _ => r) scenarioConf (scenarioWorld false)
      (Bot.start (scenarioRepo 1)) (scenarioStatus "carol" "60" "hi" "public" none)).trace
      ).length ≤ 1 := by
  have h := C11_notice_once scenarioConf (Bot.start (scenarioRepo 1)) "carol"
    (scenarioWorld false) (.notification (scenarioMention "carol" "60" "hi" "public" none))
    [(scenarioWorld false, .notification (scenarioMention "carol" "61" "hi" "direct" none)),
      (scenarioWorld false, .notification (scenarioMention "carol" "62" "hi" "public" none))]
    (by decide)
    ⟨scenarioMention "carol" "60" "hi" "public" none,
      scenarioStatus "carol" "60" "hi" "public" none, rfl, by decide, rfl, rfl, rfl, by decide⟩
    (by
      intro p hp
      simp only [List.mem_cons, List.mem_singleton, List.mem_nil_iff, or_false] at hp
      rcases hp with rfl | rfl
      · exact ⟨scenarioMention "carol" "61" "hi" "direct" none,
          scenarioStatus "carol" "61" "hi" "direct" none, rfl, by decide, rfl, rfl, rfl,
          by decide⟩
      · exact ⟨scenarioMention "carol" "62" "hi" "public" none,
          scenarioStatus "carol" "62" "hi" "public" none, rfl, by decide, rfl, rfl, rfl,
          by decide⟩)
  exact ⟨by decide, h.2.2.2.1, by decide, h.2.2.2.2.2.2 _ _ _ _⟩

/-- C12: for a mention of a stranger whose notice flag is unset and whose
native reply pointer is set, no action is issued and the notice flag stays
unset; only the account record is ensured (order counts, ticket balances,
fingerprints, the other records and boostsenabled are unchanged). A later
mention of the same account without reply pointer, still as a stranger, then
sends the notice. -/
theorem C12_reply_keeps_flag (conf : Config) (w : World) (b : Bot) (n : Notification)
    (st : Status) (hty : n.Type_ = "mention") (hst : n.Status = some st)
    (hfol : followedBy w st = some false) (hflag : got_notice b.repo st.Account.Acct = 0)
    (hrep : st.InReplyToID ≠ none) :
    actions (processEvent conf w b (.notification n)).trace = [] ∧
    got_notice (processEvent conf w b (.notification n)).bot.repo st.Account.Acct = 0 ∧
    (processEvent conf w b (.notification n)).bot.repo.notice = b.repo.notice ∧
    (processEvent conf w b (.notification n)).bot.repo.order = b.repo.order ∧
    (processEvent conf w b (.notification n)).bot.repo.ticket = b.repo.ticket ∧
    (processEvent conf w b (.notification n)).bot.repo.hashes = b.repo.hashes ∧
    (processEvent conf w b (.notification n)).bot.boostsenabled = b.boostsenabled ∧
    exist_in_database (processEvent conf w b (.notification n)).bot.repo st.Account.Acct
      = true ∧
    (∀ a, a ≠ st.Account.Acct →
      exist_in_database (processEvent conf w b (.notification n)).bot.repo a
        = exist_in_database b.repo a) ∧
    (∀ (w2 : World) (n2 : Notification) (st2 : Status),
      n2.Type_ = "mention" → n2.Status = some st2 → st2.Account.Acct = st.Account.Acct →
      followedBy w2 st2 = some false → st2.InReplyToID = none →
      posts (RunBot conf b [(w, .notification n), (w2, .notification n2)]).trace
        = [("@" ++ st.Account.Acct ++ " " ++ conf.NotFollowedMessage, "direct",
            w2.postToot ("@" ++ st.Account.Acct ++ " " ++ conf.NotFollowedMessage) "direct")])
    := by
  have hf := addIfNeeded_fields b.repo st.Account.Acct
  have ha := addIfNeeded_actions b.repo st.Account.Acct
  have heq : processEvent conf w b (.notification n) =
      Step.done { b with repo := (addIfNeeded b.repo st.Account.Acct).1 }
        (.GetAccountRelationships [st.Account.ID] :: (addIfNeeded b.repo st.Account.Acct).2) := by
    rw [stranger_mention conf w b n st hty hst hfol, noticePath_reply conf w b st hflag hrep]
    rfl
  have hflag2 : got_notice (processEvent conf w b (.notification n)).bot.repo st.Account.Acct
      = 0 := by
    rw [heq]
    simp only [Step.done, got_notice, hf.2.2.1]
    exact hflag
  have hposts : posts (processEvent conf w b (.notification n)).trace = [] := by
    rw [heq]
    simp only [Step.done, posts_query, ha.2.2]
  refine ⟨?_, hflag2, ?_, ?_, ?_, ?_, ?_, ?_, ?_, ?_⟩
  · rw [heq]
    simp only [Step.done, actions_query, ha.1]
  · rw [heq]; exact hf.2.2.1
  · rw [heq]; exact hf.1
  · rw [heq]; exact hf.2.1
  · rw [heq]; exact hf.2.2.2
  · rw [heq]; rfl
  · rw [heq]
    simp only [Step.done, addIfNeeded]
    split_ifs with hk
    · exact exist_add_to_db b.repo st.Account.Acct
    · simpa using hk
  · intro a hne
    rw [heq]
    simp only [Step.done, addIfNeeded]
    split_ifs
    · simp [exist_in_database, add_to_db, hne]
    · rfl
  · intro w2 n2 st2 hty2 hst2 hacct2 hfol2 hrep2
    have hp : (processEvent conf w b (.notification n)).panicked = false := by
      rw [heq]; rfl
    have h2 := stranger_first conf w2 (processEvent conf w b (.notification n)).bot n2 st2
      hty2 hst2 hfol2 (by rw [hacct2]; exact hflag2) hrep2
    rw [RunBot_two_trace conf b w w2 _ _ hp, posts_append, hposts, h2.1, hacct2]
    rfl

/-- C12 at a reply of carol, who does not follow the bot: no action, the
flag stays unset, and her next mention without reply pointer is answered with
the notice. -/
theorem C12_reply_keeps_flag_witness :
    got_notice (Bot.start (scenarioRepo 1)).repo "carol" = 0 ∧
    (scenarioStatus "carol" "60" "hi" "public" (some "59")).InReplyToID ≠ none ∧
    actions (processEvent scenarioConf (scenarioWorld false) (Bot.start (scenarioRepo 1))
      (.notification (scenarioMention "carol" "60" "hi" "public" (some "59")))).trace = [] ∧
    got_notice (processEvent scenarioConf (scenarioWorld false) (Bot.start (scenarioRepo 1))
      (.notification (scenarioMention "carol" "60" "hi" "public" (some "59")))).bot.repo
      "carol" = 0 ∧
    posts (RunBot scenarioConf (Bot.start (scenarioRepo 1))
      [(scenarioWorld false,
          .notification (scenarioMention "carol" "60" "hi" "public" (some "59"))),
        (scenarioWorld false, .notification (scenarioMention "carol" "61" "hi" "public" none))]
      ).trace = [("@carol please follow first", "direct", false)] :=
  ⟨by decide, by decide,
    (C12_reply_keeps_flag scenarioConf (scenarioWorld false) (Bot.start (scenarioRepo 1))
      (scenarioMention "carol" "60" "hi" "public" (some "59"))
      (scenarioStatus "carol" "60" "hi" "public" (some "59"))
      (by decide) rfl (by decide) (by decide) (by decide)).1,
    (C12_reply_keeps_flag scenarioConf (scenarioWorld false) (Bot.start (scenarioRepo 1))
      (scenarioMention "carol" "60" "hi" "public" (some "59"))
      (scenarioStatus "carol" "60" "hi" "public" (some "59"))
      (by decide) rfl (by decide) (by decide) (by decide)).2.1,
    (C12_reply_keeps_flag scenarioConf (scenarioWorld false) (Bot.start (scenarioRepo 1))
      (scenarioMention "carol" "60" "hi" "public" (some "59"))
      (scenarioStatus "carol" "60" "hi" "public" (some "59"))
      (by decide) rfl (by decide) (by decide) (by decide)).2.2.2.2.2.2.2.2.2
      (scenarioWorld false) (scenarioMention "carol" "61" "hi" "public" none)
      (scenarioStatus "carol" "61" "hi" "public" none)
      (by decide) rfl rfl (by decide) rfl⟩

/-! ## Failures of the outside calls: claims C13 and C14 -/

/-- A mention for which the relationship query returns no entry ends the
loop: line 128 indexes the empty slice. The events that follow are not
processed. -/
theorem mention_without_relationship (conf : Config) (w : World) (b : Bot)
    (n : Notification) (st : Status) (rest : List (World × Event))
    (hty : n.Type_ = "mention") (hst : n.Status = some st)
    (hrel : (w.GetAccountRelationships [st.Account.ID]).1 = []) :
    processEvent conf w b (.notification n)
      = Step.panic b [.GetAccountRelationships [st.Account.ID]] ∧
    RunBot conf b ((w, .notification n) :: rest)
      = Step.panic b [.GetAccountRelationships [st.Account.ID]] := by
  have hfol : followedBy w st = none := by simp [followedBy, hrel]
  have h : processEvent conf w b (.notification n)
      = Step.panic b [.GetAccountRelationships [st.Account.ID]] := by
    rw [processEvent_mention conf w b n hty]
    simp [onMention, hst, hfol]
  refine ⟨h, ?_⟩
  simp [RunBot, h, Step.panic]

/-- C13, the code at the failing input: the relationship query fails (no
entry, an error) for a public mention of bob. Processing the event panics, and
the loop does not go on to the follow event of alice that comes next: its
trace ends with the query, no record is created and no welcome is posted. -/
theorem C13_relationship_error_panics :
    ({ scenarioWorld true with GetAccountRelationships := fun _ => ([], true) } : World
      ).GetAccountRelationships ["7"] = ([], true) ∧
    (processEvent scenarioConf
      { scenarioWorld true with GetAccountRelationships := fun _ => ([], true) }
      (Bot.start (scenarioRepo 1))
      (.notification (scenarioMention "bob" "109" "hello" "public" none))).panicked = true ∧
    (RunBot scenarioConf (Bot.start (scenarioRepo 1))
      [({ scenarioWorld true with GetAccountRelationships := fun _ => ([], true) },
          .notification (scenarioMention "bob" "109" "hello" "public" none)),
        (scenarioWorld true, .notification (scenarioFollow "alice"))]).panicked = true ∧
    (RunBot scenarioConf (Bot.start (scenarioRepo 1))
      [({ scenarioWorld true with GetAccountRelationships := fun _ => ([], true) },
          .notification (scenarioMention "bob" "109" "hello" "public" none)),
        (scenarioWorld true, .notification (scenarioFollow "alice"))]).trace
      = [.GetAccountRelationships ["7"]] :=
  ⟨by decide, by decide, by decide, by decide⟩

/-- CheckAPReply returns true exactly when the status is 200 and the decoded
object has an `inReplyTo` that is not null. -/
theorem CheckAPReply_true_iff (w : World) (url : String) :
    CheckAPReply w url = some true ↔
      ∃ resp target, w.httpGet url = .response resp ∧ resp.StatusCode = 200 ∧
        (if resp.ContentEncoding = "gzip" then resp.gunzip else some resp.plain)
          = some (.object (some target)) := by
  unfold CheckAPReply
  cases hget : w.httpGet url with
  | requestError => simp
  | transportError => simp
  | response resp =>
    by_cases hs : resp.StatusCode = 200
    · rcases hr : (if resp.ContentEncoding = "gzip" then resp.gunzip else some resp.plain)
        with _ | _ | _ | target <;> simp [hs, hr]
    · simp [hs]

/-- CheckAPReply panics exactly when the status is 200, the response declares
gzip and `gzip.NewReader` fails; in every other case it returns a value. -/
theorem CheckAPReply_panic_iff (w : World) (url : String) :
    CheckAPReply w url = none ↔
      ∃ resp, w.httpGet url = .response resp ∧ resp.StatusCode = 200 ∧
        resp.ContentEncoding = "gzip" ∧ resp.gunzip = none := by
  unfold CheckAPReply
  cases hget : w.httpGet url with
  | requestError => simp
  | transportError => simp
  | response resp =>
    by_cases hs : resp.StatusCode = 200
    · by_cases hg : resp.ContentEncoding = "gzip"
      · rcases hz : resp.gunzip with _ | _ | _ | target <;> simp [hs, hg, hz]
      · rcases hz : resp.plain with _ | _ | target <;> simp [hs, hg, hz]
    · simp [hs]

/-- The failures on which CheckAPReply fails open: request construction
error, transport error, a status other than 200, and a body read through a
valid reader that does not decode. -/
theorem CheckAPReply_fails_open (w : World) (url : String) :
    (w.httpGet url = .requestError → CheckAPReply w url = some false) ∧
    (w.httpGet url = .transportError → CheckAPReply w url = some false) ∧
    (∀ resp, w.httpGet url = .response resp → resp.StatusCode ≠ 200 →
      CheckAPReply w url = some false) ∧
    (∀ resp, w.httpGet url = .response resp → resp.ContentEncoding ≠ "gzip" →
      resp.plain = .failure → CheckAPReply w url = some false) ∧
    (∀ resp, w.httpGet url = .response resp → resp.ContentEncoding = "gzip" →
      resp.gunzip = some .failure → CheckAPReply w url = some false) := by
  unfold CheckAPReply
  refine ⟨fun h => by simp [h], fun h => by simp [h], fun resp h hs => by simp [h, hs],
    fun resp h hg hp => ?_, fun resp h hg hz => ?_⟩
  · by_cases hs : resp.StatusCode = 200 <;> simp [h, hs, hg, hp]
  · by_cases hs : resp.StatusCode = 200 <;> simp [h, hs, hg, hz]

/-- C14, the code at the failing input: the server answers 200 and declares
`Content-Encoding: gzip`, and the body is not a gzip stream, so
`gzip.NewReader` fails. CheckAPReply does not return false: it panics, and so
does the processing of the public mention of the follower bob that asked for
the check. -/
theorem C14_gzip_failure_panics :
    CheckAPReply
      { scenarioWorld true with httpGet := fun _ => .response ⟨200, "gzip", .failure, none⟩ }
      "https://example.org/109" = none ∧
    (processEvent scenarioConf
      { scenarioWorld true with httpGet := fun _ => .response ⟨200, "gzip", .failure, none⟩ }
      (Bot.start (scenarioRepo 1))
      (.notification (scenarioMention "bob" "109" "hello" "public" none))).panicked = true ∧
    CheckAPReply
      { scenarioWorld true with httpGet := fun _ => .response ⟨200, "", .failure, none⟩ }
      "https://example.org/109" = some false :=
  ⟨by decide, by decide, by decide⟩

/-! ## What one event changes -/

/-- The two results of the boost path: either the gate is closed and the
repository is the one before or the one after lines 142-157, or the gate is
open and one ticket is taken and one order counted on top of that. -/
theorem boostPath_bot (conf : Config) (w : World) (b : Bot) (st : Status) :
    (¬ gateOpen conf w b st ∧
      ((boostPath conf w b st).bot = b ∨
        (boostPath conf w b st).bot = { b with repo := (prepared w b.repo st).1 })) ∨
    (gateOpen conf w b st ∧
      (boostPath conf w b st).bot =
        { b with repo :=
            (count_order (take_ticket (prepared w b.repo st).1 st.Account.Acct)
              st.Account.Acct) }) := by
  by_cases hg : gateOpen conf w b st
  · obtain ⟨h1, h2, h3, h4, h5⟩ := hg
    exact Or.inr ⟨⟨h1, h2, h3, h4, h5⟩, by rw [boostPath_granted conf w b st h1 h2 h3 h4 h5]; rfl⟩
  · refine Or.inl ⟨hg, ?_⟩
    by_cases h1 : b.boostsenabled = true
    · by_cases h2 : st.InReplyToID = none
      · cases h3 : CheckAPReply w st.URL with
        | none => exact Or.inl (by rw [boostPath_panic conf w b st h1 h2 h3]; rfl)
        | some v =>
          cases v
          · have h4 : ¬ (check_order b.repo st.Account.Acct < conf.Order_limit ∧
                check_ticket b.repo st.Account.Acct > 0) :=
              fun h => hg ⟨h1, h2, h3, h.1, h.2⟩
            exact Or.inr (by rw [boostPath_denied conf w b st h1 h2 h3 h4]; rfl)
          · exact Or.inl (by rw [boostPath_apreply conf w b st h1 h2 h3]; rfl)
      · exact Or.inl (by rw [boostPath_native conf w b st h2]; rfl)
    · have h1f : b.boostsenabled = false := by simpa using h1
      exact Or.inl (by rw [boostPath_disabled conf w b st h1f]; rfl)

theorem prepared_users_other (w : World) (r : Repository) (st : Status) (a : String)
    (ha : a ≠ st.Account.Acct) :
    exist_in_database (prepared w r st).1 a = exist_in_database r a := by
  have h := prepared_users w r st a
  simp only [ha, false_or] at h
  exact Bool.eq_iff_iff.mpr h

/-- What the boost path leaves alone: the toggle, the notice flags, and the
record, order count and ticket balance of every account but the sender. -/
theorem boostPath_frame (conf : Config) (w : World) (b : Bot) (st : Status) :
    (boostPath conf w b st).bot.boostsenabled = b.boostsenabled ∧
    (boostPath conf w b st).bot.repo.notice = b.repo.notice ∧
    (∀ a, a ≠ st.Account.Acct →
      exist_in_database (boostPath conf w b st).bot.repo a = exist_in_database b.repo a ∧
      check_order (boostPath conf w b st).bot.repo a = check_order b.repo a ∧
      check_ticket (boostPath conf w b st).bot.repo a = check_ticket b.repo a) := by
  have hf := prepared_fields w b.repo st
  rcases boostPath_bot conf w b st with ⟨_, h | h⟩ | ⟨_, h⟩
  · rw [h]
    exact ⟨rfl, rfl, fun a _ => ⟨rfl, rfl, rfl⟩⟩
  · rw [h]
    refine ⟨rfl, hf.2.2, fun a ha => ⟨prepared_users_other w b.repo st a ha, ?_, ?_⟩⟩
    · simp only [check_order, hf.1]
    · simp only [check_ticket, hf.2.1]
  · rw [h]
    refine ⟨rfl, hf.2.2, fun a ha => ⟨prepared_users_other w b.repo st a ha, ?_, ?_⟩⟩
    · simp [check_order, count_order, take_ticket, ha, hf.1]
    · simp [check_ticket, count_order, take_ticket, ha, hf.2.1]

/-- The quota side of the boost path: with the gate closed the order counts
and ticket balances are those before; with the gate open the sender has one
order more and one ticket less. -/
theorem boostPath_quota (conf : Config) (w : World) (b : Bot) (st : Status) :
    (¬ gateOpen conf w b st ∧
      (boostPath conf w b st).bot.repo.order = b.repo.order ∧
      (boostPath conf w b st).bot.repo.ticket = b.repo.ticket) ∨
    (gateOpen conf w b st ∧
      (boostPath conf w b st).bot.repo.order
        = (fun a => if a = st.Account.Acct then b.repo.order a + 1 else b.repo.order a) ∧
      (boostPath conf w b st).bot.repo.ticket
        = (fun a => if a = st.Account.Acct then b.repo.ticket a - 1 else b.repo.ticket a)) := by
  have hf := prepared_fields w b.repo st
  rcases boostPath_bot conf w b st with ⟨hg, h | h⟩ | ⟨hg, h⟩
  · exact Or.inl ⟨hg, by rw [h], by rw [h]⟩
  · exact Or.inl ⟨hg, by rw [h]; exact hf.1, by rw [h]; exact hf.2.1⟩
  · refine Or.inr ⟨hg, ?_, ?_⟩
    · rw [h]
      simp [count_order, take_ticket, hf.1]
    · rw [h]
      simp [count_order, take_ticket, hf.2.1]

/-- What the notice path leaves alone: the toggle, every order count, ticket
balance and fingerprint, and the record and notice flag of every account but
the sender. -/
theorem noticePath_frame (conf : Config) (w : World) (b : Bot) (st : Status) :
    (noticePath conf w b st).bot.repo.order = b.repo.order ∧
    (noticePath conf w b st).bot.repo.ticket = b.repo.ticket ∧
    (noticePath conf w b st).bot.repo.hashes = b.repo.hashes ∧
    (∀ a, a ≠ st.Account.Acct →
      exist_in_database (noticePath conf w b st).bot.repo a = exist_in_database b.repo a ∧
      (noticePath conf w b st).bot.repo.notice a = b.repo.notice a) := by
  simp only [noticePath, addIfNeeded]
  split_ifs <;>
    exact ⟨by simp [Step.done, mark_notice, add_to_db],
      by simp [Step.done, mark_notice, add_to_db],
      by simp [Step.done, mark_notice, add_to_db],
      fun a ha => by simp [Step.done, mark_notice, add_to_db, exist_in_database, ha]⟩

/-- Where the state after one event comes from. -/
theorem processEvent_bot (conf : Config) (w : World) (b : Bot) (ev : Event) :
    (processEvent conf w b ev).bot = b ∨
    (∃ n, ev = .notification n ∧ n.Type_ = "follow" ∧
      (processEvent conf w b ev).bot = { b with repo := add_to_db b.repo n.Account.Acct }) ∨
    (∃ n st, ev = .notification n ∧ n.Type_ = "mention" ∧ n.Status = some st ∧
      ((processEvent conf w b ev).bot = (boostPath conf w b st).bot ∨
        (processEvent conf w b ev).bot
          = (adminLoop st.Account.Acct st.Content conf.Admins b).1 ∨
        (processEvent conf w b ev).bot = (noticePath conf w b st).bot)) := by
  cases ev with
  | other => exact Or.inl rfl
  | notification n =>
    by_cases hf : n.Type_ = "follow"
    · rw [processEvent_follow conf w b n hf]
      simp only [onFollow]
      split_ifs
      · exact Or.inr (Or.inl ⟨n, rfl, hf, rfl⟩)
      · exact Or.inl rfl
    · by_cases hm : n.Type_ = "mention"
      · rw [processEvent_mention conf w b n hm]
        cases hst : n.Status with
        | none => exact Or.inl (by simp [onMention, hst, Step.panic])
        | some st =>
          rcases hfol : followedBy w st with _ | _ | _
          · exact Or.inl (by simp [onMention, hst, hfol, Step.panic])
          · exact Or.inr (Or.inr ⟨n, st, rfl, hm, hst, Or.inr (Or.inr
              (by rw [onMention_stranger conf w b n st hst hfol]))⟩)
          · by_cases hpub : st.Visibility = "public"
            · exact Or.inr (Or.inr ⟨n, st, rfl, hm, hst, Or.inl
                (by rw [onMention_public conf w b n st hst hfol hpub])⟩)
            · by_cases hdir : st.Visibility = "direct"
              · exact Or.inr (Or.inr ⟨n, st, rfl, hm, hst, Or.inr (Or.inl
                  (by rw [onMention_direct conf w b n st hst hfol hdir]; rfl))⟩)
              · exact Or.inl (by simp [onMention, hst, hfol, hpub, hdir, Step.done])
      · exact Or.inl (by simp [processEvent, onNotification, hf, hm, Step.done])

theorem public_mention_step (conf : Config) (w : World) (b : Bot) (n : Notification)
    (st : Status) (hty : n.Type_ = "mention") (hst : n.Status = some st)
    (hfol : followedBy w st = some true) (hvis : st.Visibility = "public") :
    (processEvent conf w b (.notification n)).bot = (boostPath conf w b st).bot ∧
    (processEvent conf w b (.notification n)).panicked = (boostPath conf w b st).panicked ∧
    (processEvent conf w b (.notification n)).trace
      = .GetAccountRelationships [st.Account.ID] :: (boostPath conf w b st).trace := by
  rw [processEvent_mention conf w b n hty, onMention_public conf w b n st hst hfol hvis]
  exact ⟨rfl, rfl, rfl⟩

theorem boostPath_panicked (conf : Config) (w : World) (b : Bot) (st : Status) :
    (boostPath conf w b st).panicked = true ↔
      (b.boostsenabled = true ∧ st.InReplyToID = none ∧ CheckAPReply w st.URL = none) := by
  by_cases h1 : b.boostsenabled = true
  · by_cases h2 : st.InReplyToID = none
    · cases h3 : CheckAPReply w st.URL with
      | none => simp [boostPath_panic conf w b st h1 h2 h3, Step.panic, h1, h2]
      | some v =>
        cases v
        · by_cases h4 : check_order b.repo st.Account.Acct < conf.Order_limit ∧
              check_ticket b.repo st.Account.Acct > 0
          · simp [boostPath_granted conf w b st h1 h2 h3 h4.1 h4.2, Step.done]
          · simp [boostPath_denied conf w b st h1 h2 h3 h4, Step.done]
        · simp [boostPath_apreply conf w b st h1 h2 h3, Step.done]
    · simp [boostPath_native conf w b st h2, Step.done, h2]
  · have h1f : b.boostsenabled = false := by simpa using h1
    simp [boostPath_disabled conf w b st h1f, Step.done, h1f]

theorem granted_actions (conf : Config) (w : World) (b : Bot) (n : Notification)
    (st : Status) (hty : n.Type_ = "mention") (hst : n.Status = some st)
    (hfol : followedBy w st = some true) (hvis : st.Visibility = "public")
    (hg : gateOpen conf w b st) :
    reblogs (processEvent conf w b (.notification n)).trace = [st.ID] ∧
    actions (processEvent conf w b (.notification n)).trace = [.Reblog st.ID] := by
  have hp := prepared_actions w b.repo st
  rw [public_mention_granted conf w b n st hty hst hfol hvis hg]
  refine ⟨?_, ?_⟩
  · simp [Step.done, reblogs, reblogs_append, hp.2.1]
  · have e : actions (.GetAccountRelationships [st.Account.ID] :: .httpGet st.URL ::
        (prepared w b.repo st).2 ++
        [.take_ticket st.Account.Acct, .count_order st.Account.Acct, .Reblog st.ID])
        = actions (prepared w b.repo st).2 ++ [.Reblog st.ID] := by
      simp [actions, Call.isAction]
    simp only [Step.done, e, hp.1, List.nil_append]

/-! ## The fingerprint and the quota: claims C15 and C16 -/

/-- C15: two states with the same toggle, order counts and ticket balances,
whatever fingerprints each has recorded (so in particular two states that
differ only in whether the digest of the content is recorded), give for the
same public mention of a follower the same reblogs, the same actions, the same
order counts and ticket balances afterwards, and the same panic status. With
the gate conditions true, the reblog is issued although the digest of the
content is recorded already. -/
theorem C15_fingerprint_no_gate (conf : Config) (w : World) (b1 b2 : Bot)
    (n : Notification) (st : Status) (hty : n.Type_ = "mention") (hst : n.Status = some st)
    (hfol : followedBy w st = some true) (hvis : st.Visibility = "public")
    (hen : b1.boostsenabled = b2.boostsenabled) (ho : b1.repo.order = b2.repo.order)
    (ht : b1.repo.ticket = b2.repo.ticket) :
    reblogs (processEvent conf w b1 (.notification n)).trace
      = reblogs (processEvent conf w b2 (.notification n)).trace ∧
    actions (processEvent conf w b1 (.notification n)).trace
      = actions (processEvent conf w b2 (.notification n)).trace ∧
    (processEvent conf w b1 (.notification n)).bot.repo.order
      = (processEvent conf w b2 (.notification n)).bot.repo.order ∧
    (processEvent conf w b1 (.notification n)).bot.repo.ticket
      = (processEvent conf w b2 (.notification n)).bot.repo.ticket ∧
    (processEvent conf w b1 (.notification n)).panicked
      = (processEvent conf w b2 (.notification n)).panicked ∧
    (check_msg_hash b1.repo (w.sha512hex st.Content) = true →
      b1.boostsenabled = true → st.InReplyToID = none → CheckAPReply w st.URL = some false →
      check_order b1.repo st.Account.Acct < conf.Order_limit →
      check_ticket b1.repo st.Account.Acct > 0 →
      reblogs (processEvent conf w b1 (.notification n)).trace = [st.ID]) := by
  have hgate : gateOpen conf w b1 st ↔ gateOpen conf w b2 st := by
    simp only [gateOpen, check_order, check_ticket, hen, ho, ht]
  have hs1 := public_mention_step conf w b1 n st hty hst hfol hvis
  have hs2 := public_mention_step conf w b2 n st hty hst hfol hvis
  have hpan : (boostPath conf w b1 st).panicked = (boostPath conf w b2 st).panicked := by
    rw [Bool.eq_iff_iff, boostPath_panicked, boostPath_panicked, hen]
  have hq1 := boostPath_quota conf w b1 st
  have hq2 := boostPath_quota conf w b2 st
  have hlast : check_msg_hash b1.repo (w.sha512hex st.Content) = true →
      b1.boostsenabled = true → st.InReplyToID = none → CheckAPReply w st.URL = some false →
      check_order b1.repo st.Account.Acct < conf.Order_limit →
      check_ticket b1.repo st.Account.Acct > 0 →
      reblogs (processEvent conf w b1 (.notification n)).trace = [st.ID] :=
    fun _ h1 h2 h3 h4 h5 =>
      (granted_actions conf w b1 n st hty hst hfol hvis ⟨h1, h2, h3, h4, h5⟩).1
  by_cases hg : gateOpen conf w b1 st
  · have hg2 := hgate.mp hg
    have a1 := granted_actions conf w b1 n st hty hst hfol hvis hg
    have a2 := granted_actions conf w b2 n st hty hst hfol hvis hg2
    rcases hq1 with ⟨hx, _⟩ | ⟨_, o1, t1⟩
    · exact absurd hg hx
    rcases hq2 with ⟨hx, _⟩ | ⟨_, o2, t2⟩
    · exact absurd hg2 hx
    refine ⟨by rw [a1.1, a2.1], by rw [a1.2, a2.2], ?_, ?_, by rw [hs1.2.1, hs2.2.1, hpan],
      hlast⟩
    · rw [hs1.1, hs2.1, o1, o2, ho]
    · rw [hs1.1, hs2.1, t1, t2, ht]
  · have hg2 : ¬ gateOpen conf w b2 st := fun h => hg (hgate.mpr h)
    have a1 := public_mention_refused conf w b1 n st hty hst hfol hvis hg
    have a2 := public_mention_refused conf w b2 n st hty hst hfol hvis hg2
    rcases hq1 with ⟨_, o1, t1⟩ | ⟨hx, _⟩
    swap
    · exact absurd hx hg
    rcases hq2 with ⟨_, o2, t2⟩ | ⟨hx, _⟩
    swap
    · exact absurd hx hg2
    refine ⟨by rw [a1.2, a2.2], by rw [a1.1, a2.1], ?_, ?_, by rw [hs1.2.1, hs2.2.1, hpan],
      hlast⟩
    · rw [hs1.1, hs2.1, o1, o2, ho]
    · rw [hs1.1, hs2.1, t1, t2, ht]

/-- C15 at the scenario of the specification, once on the empty repository
and once with the digest of the content recorded before: the same reblog. -/
theorem C15_fingerprint_no_gate_witness :
    check_msg_hash (Bot.start (save_msg_hash (scenarioRepo 1) "sha512:hello")).repo
      "sha512:hello" = true ∧
    check_msg_hash (Bot.start (scenarioRepo 1)).repo "sha512:hello" = false ∧
    reblogs (processEvent scenarioConf (scenarioWorld true)
      (Bot.start (save_msg_hash (scenarioRepo 1) "sha512:hello"))
      (.notification (scenarioMention "bob" "109" "hello" "public" none))).trace
      = reblogs (processEvent scenarioConf (scenarioWorld true) (Bot.start (scenarioRepo 1))
        (.notification (scenarioMention "bob" "109" "hello" "public" none))).trace ∧
    reblogs (processEvent scenarioConf (scenarioWorld true)
      (Bot.start (save_msg_hash (scenarioRepo 1) "sha512:hello"))
      (.notification (scenarioMention "bob" "109" "hello" "public" none))).trace = ["109"] :=
  ⟨by decide, by decide,
    (C15_fingerprint_no_gate scenarioConf (scenarioWorld true)
      (Bot.start (save_msg_hash (scenarioRepo 1) "sha512:hello")) (Bot.start (scenarioRepo 1))
      (scenarioMention "bob" "109" "hello" "public" none)
      (scenarioStatus "bob" "109" "hello" "public" none)
      (by decide) rfl (by decide) (by decide) rfl rfl rfl).1,
    (C15_fingerprint_no_gate scenarioConf (scenarioWorld true)
      (Bot.start (save_msg_hash (scenarioRepo 1) "sha512:hello")) (Bot.start (scenarioRepo 1))
      (scenarioMention "bob" "109" "hello" "public" none)
      (scenarioStatus "bob" "109" "hello" "public" none)
      (by decide) rfl (by decide) (by decide) rfl rfl rfl).2.2.2.2.2
      (by decide) (by decide) (by decide) (by decide) (by decide) (by decide)⟩

/-- One event keeps the quota bounds. -/
theorem processEvent_quotaOk (conf : Config) (w : World) (b : Bot) (ev : Event)
    (h : quotaOk conf b.repo) : quotaOk conf (processEvent conf w b ev).bot.repo := by
  rcases processEvent_bot conf w b ev with hb | ⟨n, _, _, hb⟩ | ⟨n, st, _, _, _, hb | hb | hb⟩
  · rw [hb]; exact h
  · rw [hb]; exact h
  · rw [hb]
    rcases boostPath_quota conf w b st with ⟨_, ho, ht⟩ | ⟨hg, ho, ht⟩
    · intro a
      simp only [check_ticket, check_order, ho, ht]
      exact h a
    · intro a
      have ha := h a
      simp only [check_ticket, check_order] at ha
      simp only [check_ticket, check_order, ho, ht]
      by_cases e : a = st.Account.Acct
      · have h4 := hg.2.2.2.1
        have h5 := hg.2.2.2.2
        simp only [check_ticket, check_order] at h4 h5
        subst e
        simp only [if_true]
        constructor <;> omega
      · simp only [e, if_false]
        exact ha
  · rw [hb]
    intro a
    simp only [check_ticket, check_order, adminLoop_repo]
    exact h a
  · rw [hb]
    have hf := noticePath_frame conf w b st
    intro a
    simp only [check_ticket, check_order, hf.1, hf.2.1]
    exact h a

/-- A property of the state that every event keeps holds at the end of the
loop. -/
theorem RunBot_invariant (conf : Config) (P : Bot → Prop)
    (hstep : ∀ (w : World) (b : Bot) (ev : Event), P b → P (processEvent conf w b ev).bot)
    (evs : List (World × Event)) (b : Bot) (h : P b) : P (RunBot conf b evs).bot := by
  induction evs generalizing b with
  | nil => exact h
  | cons p rest ih =>
    obtain ⟨w, ev⟩ := p
    simp only [RunBot]
    split_ifs
    · exact hstep w b ev h
    · exact ih _ (hstep w b ev h)

/-- C16: when every account has a ticket balance of at least 0 and an order
count of at most the order limit in the starting state, the same holds for
every account after the loop has processed any finite sequence of events. -/
theorem C16_quota_invariant (conf : Config) (b : Bot) (evs : List (World × Event))
    (h : ∀ a : String, 0 ≤ check_ticket b.repo a ∧ check_order b.repo a ≤ conf.Order_limit) :
    ∀ a : String, 0 ≤ check_ticket (RunBot conf b evs).bot.repo a ∧
      check_order (RunBot conf b evs).bot.repo a ≤ conf.Order_limit :=
  RunBot_invariant conf (fun s => quotaOk conf s.repo)
    (fun w s ev hs => processEvent_quotaOk conf w s ev hs) evs b h

/-- C16 at two public mentions of the follower bob, who holds one ticket:
the first is boosted, the second is denied, and the balance of bob is 0, not
negative. -/
theorem C16_quota_invariant_witness :
    (∀ a : String, 0 ≤ check_ticket (Bot.start (scenarioRepo 1)).repo a ∧
      check_order (Bot.start (scenarioRepo 1)).repo a ≤ scenarioConf.Order_limit) ∧
    reblogs (RunBot scenarioConf (Bot.start (scenarioRepo 1))
      [(scenarioWorld true, .notification (scenarioMention "bob" "109" "hello" "public" none)),
        (scenarioWorld true, .notification (scenarioMention "bob" "110" "again" "public" none))]
      ).trace = ["109"] ∧
    (0 ≤ check_ticket (RunBot scenarioConf (Bot.start (scenarioRepo 1))
      [(scenarioWorld true, .notification (scenarioMention "bob" "109" "hello" "public" none)),
        (scenarioWorld true, .notification (scenarioMention "bob" "110" "again" "public" none))]
      ).bot.repo "bob" ∧
    check_order (RunBot scenarioConf (Bot.start (scenarioRepo 1))
      [(scenarioWorld true, .notification (scenarioMention "bob" "109" "hello" "public" none)),
        (scenarioWorld true, .notification (scenarioMention "bob" "110" "again" "public" none))]
      ).bot.repo "bob" ≤ scenarioConf.Order_limit) :=
  ⟨fun _ => ⟨show (0 : Int) ≤ 1 by decide, show (0 : Int) ≤ 5 by decide⟩, by decide,
    C16_quota_invariant scenarioConf (Bot.start (scenarioRepo 1))
      [(scenarioWorld true, .notification (scenarioMention "bob" "109" "hello" "public" none)),
        (scenarioWorld true, .notification (scenarioMention "bob" "110" "again" "public" none))]
      (fun _ => ⟨show (0 : Int) ≤ 1 by decide, show (0 : Int) ≤ 5 by decide⟩) "bob"⟩

/-! ## Routing and frame: claims C17, C18 and C20 -/

/-- C17: for a mention of an account that does not follow the bot, replacing
the visibility by any other value and the administrator list by any other
list gives the same step: the same state afterwards, the same calls, the same
outbound messages. boostsenabled is unchanged, no reblog is issued, and every
action issued is a post with visibility direct (so no unreblog and no delete). -/
theorem C17_stranger_ignores_visibility (conf : Config) (w : World) (b : Bot)
    (n : Notification) (st : Status) (admins : List String) (visibility : String)
    (hty : n.Type_ = "mention") (hst : n.Status = some st)
    (hfol : followedBy w st = some false) :
    processEvent { conf with Admins := admins } w b
        (.notification { n with Status := some { st with Visibility := visibility } })
      = processEvent conf w b (.notification n) ∧
    (processEvent conf w b (.notification n)).bot.boostsenabled = b.boostsenabled ∧
    reblogs (processEvent conf w b (.notification n)).trace = [] ∧
    (∀ c ∈ actions (processEvent conf w b (.notification n)).trace,
      ∃ message failed, c = .postToot message "direct" failed) := by
  have hspec := noticePath_spec conf w b st
  have h1 := stranger_mention conf w b n st hty hst hfol
  have h2 := stranger_mention { conf with Admins := admins } w b
    { n with Status := some { st with Visibility := visibility } }
    { st with Visibility := visibility } hty rfl hfol
  refine ⟨?_, ?_, ?_, ?_⟩
  · rw [h1, h2]
    rfl
  · rw [h1]
    exact hspec.1
  · rw [h1]
    exact hspec.2.2.1
  · intro c hc
    rw [h1] at hc
    simp only [actions_query] at hc
    rcases hspec.2.2.2 with h | h
    · rw [h] at hc
      simp at hc
    · rw [h] at hc
      simp only [List.mem_singleton] at hc
      exact ⟨_, _, hc⟩

/-- C17 at a mention of carol, who does not follow the bot, once public and
once direct with carol on the administrator list: the same step. -/
theorem C17_stranger_ignores_visibility_witness :
    followedBy (scenarioWorld false) (scenarioStatus "carol" "60" "@bot disable" "public" none)
      = some false ∧
    processEvent { scenarioConf with Admins := ["carol"] } (scenarioWorld false)
        (Bot.start (scenarioRepo 1))
        (.notification
          { scenarioMention "carol" "60" "@bot disable" "public" none with
            Status := some
              { scenarioStatus "carol" "60" "@bot disable" "public" none with
                Visibility := "direct" } })
      = processEvent scenarioConf (scenarioWorld false) (Bot.start (scenarioRepo 1))
        (.notification (scenarioMention "carol" "60" "@bot disable" "public" none)) ∧
    (processEvent scenarioConf (scenarioWorld false) (Bot.start (scenarioRepo 1))
      (.notification (scenarioMention "carol" "60" "@bot disable" "public" none))
      ).bot.boostsenabled = (Bot.start (scenarioRepo 1)).boostsenabled :=
  ⟨by decide,
    (C17_stranger_ignores_visibility scenarioConf (scenarioWorld false)
      (Bot.start (scenarioRepo 1)) (scenarioMention "carol" "60" "@bot disable" "public" none)
      (scenarioStatus "carol" "60" "@bot disable" "public" none) ["carol"] "direct"
      (by decide) rfl (by decide)).1,
    (C17_stranger_ignores_visibility scenarioConf (scenarioWorld false)
      (Bot.start (scenarioRepo 1)) (scenarioMention "carol" "60" "@bot disable" "public" none)
      (scenarioStatus "carol" "60" "@bot disable" "public" none) ["carol"] "direct"
      (by decide) rfl (by decide)).2.1⟩

/-- C18: a public mention of a follower that stops at boostsenabled being
false or at the native reply pointer being set makes the relationship query
and nothing else: the state is unchanged and CheckAPReply is not invoked. One
that stops at CheckAPReply returning true makes the relationship query and the
fetch and nothing else, and the state is unchanged. In all three cases no
action and no repository write is issued. -/
theorem C18_abort_no_side_effect (conf : Config) (w : World) (b : Bot) (n : Notification)
    (st : Status) (hty : n.Type_ = "mention") (hst : n.Status = some st)
    (hfol : followedBy w st = some true) (hvis : st.Visibility = "public") :
    ((b.boostsenabled = false ∨ st.InReplyToID ≠ none) →
      processEvent conf w b (.notification n)
        = Step.done b [.GetAccountRelationships [st.Account.ID]] ∧
      (∀ url, Call.httpGet url ∉ (processEvent conf w b (.notification n)).trace)) ∧
    ((b.boostsenabled = true ∧ st.InReplyToID = none ∧ CheckAPReply w st.URL = some true) →
      processEvent conf w b (.notification n)
        = Step.done b [.GetAccountRelationships [st.Account.ID], .httpGet st.URL]) ∧
    ((b.boostsenabled = false ∨ st.InReplyToID ≠ none ∨ CheckAPReply w st.URL = some true) →
      (processEvent conf w b (.notification n)).bot = b ∧
      actions (processEvent conf w b (.notification n)).trace = [] ∧
      writes (processEvent conf w b (.notification n)).trace = [] ∧
      reblogs (processEvent conf w b (.notification n)).trace = []) := by
  have hstep : processEvent conf w b (.notification n) =
      { boostPath conf w b st with
        trace := .GetAccountRelationships [st.Account.ID] :: (boostPath conf w b st).trace } := by
    rw [processEvent_mention conf w b n hty, onMention_public conf w b n st hst hfol hvis]
  have hquiet : (b.boostsenabled = false ∨ st.InReplyToID ≠ none) →
      processEvent conf w b (.notification n)
        = Step.done b [.GetAccountRelationships [st.Account.ID]] := by
    rintro (h | h)
    · rw [hstep, boostPath_disabled conf w b st h]
      rfl
    · rw [hstep, boostPath_native conf w b st h]
      rfl
  have hfetch : (b.boostsenabled = true ∧ st.InReplyToID = none ∧
      CheckAPReply w st.URL = some true) →
      processEvent conf w b (.notification n)
        = Step.done b [.GetAccountRelationships [st.Account.ID], .httpGet st.URL] := by
    rintro ⟨h1, h2, h3⟩
    rw [hstep, boostPath_apreply conf w b st h1 h2 h3]
    rfl
  refine ⟨fun h => ⟨hquiet h, fun url hm => ?_⟩, hfetch, fun h => ?_⟩
  · rw [hquiet h] at hm
    simp [Step.done] at hm
  · by_cases hq : b.boostsenabled = false ∨ st.InReplyToID ≠ none
    · rw [hquiet hq]
      exact ⟨rfl, rfl, rfl, rfl⟩
    · have h1 : b.boostsenabled = true := by
        cases hb : b.boostsenabled
        · exact absurd (Or.inl hb) hq
        · rfl
      have h2 : st.InReplyToID = none := by
        by_contra hne
        exact hq (Or.inr hne)
      have h3 : CheckAPReply w st.URL = some true := by
        rcases h with h | h | h
        · exact absurd (Or.inl h) hq
        · exact absurd (Or.inr h) hq
        · exact h
      rw [hfetch ⟨h1, h2, h3⟩]
      exact ⟨rfl, rfl, rfl, rfl⟩

/-- C18 at a public reply of the follower bob (native pointer set), and at
his public mention while boosts are disabled: the relationship query is the
only call. -/
theorem C18_abort_no_side_effect_witness :
    (scenarioStatus "bob" "109" "hello" "public" (some "108")).InReplyToID ≠ none ∧
    processEvent scenarioConf (scenarioWorld true) (Bot.start (scenarioRepo 1))
        (.notification (scenarioMention "bob" "109" "hello" "public" (some "108")))
      = Step.done (Bot.start (scenarioRepo 1)) [.GetAccountRelationships ["7"]] ∧
    processEvent scenarioConf (scenarioWorld true) ⟨scenarioRepo 1, false⟩
        (.notification (scenarioMention "bob" "109" "hello" "public" none))
      = Step.done ⟨scenarioRepo 1, false⟩ [.GetAccountRelationships ["7"]] :=
  ⟨by decide,
    ((C18_abort_no_side_effect scenarioConf (scenarioWorld true) (Bot.start (scenarioRepo 1))
      (scenarioMention "bob" "109" "hello" "public" (some "108"))
      (scenarioStatus "bob" "109" "hello" "public" (some "108"))
      (by decide) rfl (by decide) (by decide)).1 (Or.inr (by decide))).1,
    ((C18_abort_no_side_effect scenarioConf (scenarioWorld true) ⟨scenarioRepo 1, false⟩
      (scenarioMention "bob" "109" "hello" "public" none)
      (scenarioStatus "bob" "109" "hello" "public" none)
      (by decide) rfl (by decide) (by decide)).1 (Or.inl rfl)).1⟩

/-- C20: an event that acts for the account A leaves the record, the order
count, the ticket balance and the notice flag of every other account B as
they were. -/
theorem C20_account_isolation (conf : Config) (w : World) (b : Bot) (ev : Event)
    (A B : String) (hact : ev.actor = some A) (hne : B ≠ A) :
    exist_in_database (processEvent conf w b ev).bot.repo B = exist_in_database b.repo B ∧
    check_order (processEvent conf w b ev).bot.repo B = check_order b.repo B ∧
    check_ticket (processEvent conf w b ev).bot.repo B = check_ticket b.repo B ∧
    got_notice (processEvent conf w b ev).bot.repo B = got_notice b.repo B := by
  rcases processEvent_bot conf w b ev with hb | ⟨n, hev, hty, hb⟩ |
    ⟨n, st, hev, hty, hst, hb | hb | hb⟩
  · rw [hb]
    exact ⟨rfl, rfl, rfl, rfl⟩
  · subst hev
    have hA : A = n.Account.Acct := by
      simp [Event.actor, hty] at hact
      exact hact.symm
    rw [hb]
    refine ⟨?_, rfl, rfl, rfl⟩
    simp [exist_in_database, add_to_db, hne, hA ▸ hne]
  · subst hev
    have hA : st.Account.Acct = A := by
      simpa [Event.actor, hty, hst] using hact
    have hf := boostPath_frame conf w b st
    rw [hb]
    have hB := hf.2.2 B (by rw [hA]; exact hne)
    refine ⟨hB.1, hB.2.1, hB.2.2, ?_⟩
    simp only [got_notice, hf.2.1]
  · rw [hb]
    simp [exist_in_database, check_order, check_ticket, got_notice, adminLoop_repo]
  · subst hev
    have hA : st.Account.Acct = A := by
      simpa [Event.actor, hty, hst] using hact
    have hf := noticePath_frame conf w b st
    have hB := hf.2.2.2 B (by rw [hA]; exact hne)
    rw [hb]
    refine ⟨hB.1, ?_, ?_, ?_⟩
    · simp only [check_order, hf.1]
    · simp only [check_ticket, hf.2.1]
    · simp only [got_notice, hB.2]

/-- C20 at the boosted public mention of bob: the record, order count,
ticket balance and notice flag of alice are untouched, while the ticket
balance of bob drops to 0. -/
theorem C20_account_isolation_witness :
    (Event.notification (scenarioMention "bob" "109" "hello" "public" none)).actor
      = some "bob" ∧
    check_ticket (processEvent scenarioConf (scenarioWorld true) (Bot.start (scenarioRepo 1))
      (.notification (scenarioMention "bob" "109" "hello" "public" none))).bot.repo "bob"
      = 0 ∧
    (exist_in_database (processEvent scenarioConf (scenarioWorld true)
        (Bot.start (scenarioRepo 1))
        (.notification (scenarioMention "bob" "109" "hello" "public" none))).bot.repo "alice"
      = exist_in_database (Bot.start (scenarioRepo 1)).repo "alice" ∧
    check_order (processEvent scenarioConf (scenarioWorld true) (Bot.start (scenarioRepo 1))
        (.notification (scenarioMention "bob" "109" "hello" "public" none))).bot.repo "alice"
      = check_order (Bot.start (scenarioRepo 1)).repo "alice" ∧
    check_ticket (processEvent scenarioConf (scenarioWorld true) (Bot.start (scenarioRepo 1))
        (.notification (scenarioMention "bob" "109" "hello" "public" none))).bot.repo "alice"
      = check_ticket (Bot.start (scenarioRepo 1)).repo "alice" ∧
    got_notice (processEvent scenarioConf (scenarioWorld true) (Bot.start (scenarioRepo 1))
        (.notification (scenarioMention "bob" "109" "hello" "public" none))).bot.repo "alice"
      = got_notice (Bot.start (scenarioRepo 1)).repo "alice") :=
  ⟨by decide, by decide,
    C20_account_isolation scenarioConf (scenarioWorld true) (Bot.start (scenarioRepo 1))
      (.notification (scenarioMention "bob" "109" "hello" "public" none)) "bob" "alice"
      (by decide) (by decide)⟩

/-! ## The tag stripping: claim C19 -/

theorem matchLen_nil : matchLen [] = none := rfl

theorem matchLen_single (a : Char) : matchLen [a] = none := by
  unfold matchLen
  split <;> simp_all

theorem matchLen_lt (c : Char) (rest : List Char) :
    matchLen ('<' :: c :: rest) = if c = '>' then none else (closeLen rest).map (· + 2) := by
  simp [matchLen]

theorem matchLen_other (a : Char) (t : List Char) (h : a ≠ '<') : matchLen (a :: t) = none := by
  unfold matchLen
  split
  · rename_i heq
    simp at heq
    exact absurd heq.1 h
  · rfl

theorem closeLen_none_iff (t : List Char) : closeLen t = none ↔ '>' ∉ t := by
  induction t with
  | nil => simp [closeLen]
  | cons c rest ih =>
    by_cases h : c = '>'
    · simp [closeLen, h]
    · have h2 : ¬ '>' = c := fun e => h e.symm
      simp [closeLen, h, h2, ih]

theorem stripFrom_nil (k : Nat) : stripFrom k [] = [] := by
  cases k <;> rfl

theorem stripFrom_skip (k : Nat) (s : List Char) : stripFrom k s = stripFrom 0 (s.drop k) := by
  induction k generalizing s with
  | zero => rfl
  | succ k ih =>
    cases s with
    | nil => rfl
    | cons c rest =>
      simp only [stripFrom, List.drop_succ_cons]
      exact ih rest

theorem stripFrom_zero_cons (c : Char) (rest : List Char) :
    stripFrom 0 (c :: rest) =
      match matchLen (c :: rest) with
      | some len => stripFrom 0 (rest.drop (len - 1))
      | none => c :: stripFrom 0 rest := by
  rw [stripFrom]
  cases matchLen (c :: rest) with
  | none => rfl
  | some len => exact stripFrom_skip (len - 1) rest

/-- Every character of the stripped text is a character of the text. -/
theorem mem_stripFrom (n : Nat) : ∀ (s : List Char), s.length ≤ n →
    ∀ c, c ∈ stripFrom 0 s → c ∈ s := by
  induction n with
  | zero =>
    intro s hs c hc
    have : s = [] := List.length_eq_zero.mp (Nat.le_zero.mp hs)
    subst this
    simp [stripFrom] at hc
  | succ n ih =>
    intro s hs c hc
    cases s with
    | nil => simp [stripFrom] at hc
    | cons a rest =>
      have hlen : rest.length ≤ n := by simpa using hs
      rw [stripFrom_zero_cons] at hc
      cases hm : matchLen (a :: rest) with
      | none =>
        rw [hm] at hc
        rcases List.mem_cons.mp hc with e | e
        · exact List.mem_cons.mpr (Or.inl e)
        · exact List.mem_cons_of_mem _ (ih rest hlen c e)
      | some len =>
        rw [hm] at hc
        have hd : (rest.drop (len - 1)).length ≤ n := by
          rw [List.length_drop]
          omega
        exact List.mem_cons_of_mem _ (List.mem_of_mem_drop (ih _ hd c hc))

/-- A position where the pattern does not match still does not match after
the rest of the text has been stripped. -/
theorem matchLen_cons_strip (a : Char) (rest : List Char)
    (h : matchLen (a :: rest) = none) : matchLen (a :: stripFrom 0 rest) = none := by
  by_cases ha : a = '<'
  · subst ha
    cases rest with
    | nil => simp [stripFrom, matchLen_single]
    | cons c r2 =>
      rw [matchLen_lt] at h
      by_cases hc : c = '>'
      · subst hc
        rw [stripFrom_zero_cons, matchLen_other '>' r2 (by decide), matchLen_lt]
        simp
      · have hcl : closeLen r2 = none := by simpa [hc] using h
        have hno : '>' ∉ c :: r2 := by
          rw [closeLen_none_iff] at hcl
          intro hm
          rcases List.mem_cons.mp hm with e | e
          · exact hc e.symm
          · exact hcl e
        have hout : '>' ∉ stripFrom 0 (c :: r2) :=
          fun hm => hno (mem_stripFrom (c :: r2).length (c :: r2) (Nat.le_refl _) _ hm)
        cases hs : stripFrom 0 (c :: r2) with
        | nil => exact matchLen_single '<'
        | cons d o =>
          rw [hs] at hout
          have hd : d ≠ '>' := fun e => hout (by simp [e])
          have ho : closeLen o = none := by
            rw [closeLen_none_iff]
            exact fun hm => hout (List.mem_cons_of_mem _ hm)
          rw [matchLen_lt]
          simp [hd, ho]
  · exact matchLen_other a _ ha

/-- The stripped text has no position where the pattern matches. -/
theorem tagFree_stripFrom (n : Nat) : ∀ (s : List Char), s.length ≤ n →
    tagFree (stripFrom 0 s) := by
  induction n with
  | zero =>
    intro s hs
    have : s = [] := List.length_eq_zero.mp (Nat.le_zero.mp hs)
    subst this
    simp [stripFrom, tagFree]
  | succ n ih =>
    intro s hs
    cases s with
    | nil => simp [stripFrom, tagFree]
    | cons a rest =>
      have hlen : rest.length ≤ n := by simpa using hs
      rw [stripFrom_zero_cons]
      cases hm : matchLen (a :: rest) with
      | none =>
        exact ⟨matchLen_cons_strip a rest hm, ih rest hlen⟩
      | some len =>
        have hd : (rest.drop (len - 1)).length ≤ n := by
          rw [List.length_drop]
          omega
        exact ih _ hd

theorem stripFrom_of_tagFree (t : List Char) (h : tagFree t) : stripFrom 0 t = t := by
  induction t with
  | nil => rfl
  | cons c rest ih =>
    rw [stripFrom_zero_cons, h.1]
    simp only
    rw [ih h.2]

theorem tagFree_suffix (pre post : List Char) (h : tagFree (pre ++ post)) : tagFree post := by
  induction pre with
  | nil => exact h
  | cons c rest ih => exact ih h.2

theorem matchLen_of_tagFree (t : List Char) (h : tagFree t) : matchLen t = none := by
  cases t with
  | nil => rfl
  | cons c rest => exact h.1

theorem closeLen_append_gt (body post : List Char) :
    closeLen (body ++ '>' :: post) ≠ none := by
  rw [Ne, closeLen_none_iff]
  simp

/-- A text that starts with a markup span is a position where the pattern
matches. -/
theorem matchLen_of_span (tag post : List Char) (h : isMarkupSpan tag) :
    matchLen (tag ++ post) ≠ none := by
  obtain ⟨body, hne, hgt, rfl⟩ := h
  cases body with
  | nil => exact absurd rfl hne
  | cons c r =>
    have hc : c ≠ '>' := fun e => hgt (by simp [e])
    have hcl := closeLen_append_gt r post
    simp only [List.cons_append, List.append_assoc, List.singleton_append, matchLen_lt, hc,
      if_false]
    intro hmap
    rw [List.nil_append] at hmap
    cases hx : closeLen (r ++ '>' :: post) with
    | none => exact hcl hx
    | some k =>
      rw [hx] at hmap
      simp at hmap

/-- C19: for every text, the stripped text contains no substring made of
`<`, one or more characters other than `>`, and `>`: no position of it is the
start of a match of the pattern. Hence stripping the stripped text returns it
unchanged, and the tokens of a stripped content are the tokens of the
content. -/
theorem C19_strip_idempotent (s : List Char) :
    (∀ pre tag post : List Char, stripTags s = pre ++ tag ++ post → ¬ isMarkupSpan tag) ∧
    (∀ pre post : List Char, stripTags s = pre ++ post → matchLen post = none) ∧
    stripTags (stripTags s) = stripTags s ∧
    commandArgs (String.mk (stripTags s)) = commandArgs (String.mk s) := by
  have hfree : tagFree (stripTags s) := tagFree_stripFrom s.length s (Nat.le_refl _)
  have hidem : stripTags (stripTags s) = stripTags s := stripFrom_of_tagFree _ hfree
  refine ⟨fun pre tag post heq hspan => ?_, fun pre post heq => ?_, hidem, ?_⟩
  · rw [heq, List.append_assoc] at hfree
    exact matchLen_of_span tag post hspan
      (matchLen_of_tagFree _ (tagFree_suffix pre (tag ++ post) hfree))
  · rw [heq] at hfree
    exact matchLen_of_tagFree _ (tagFree_suffix pre post hfree)
  · simp only [commandArgs, hidem]

end GroupBot
